import Mathlib

/-!
Verification of the transformation and directive-conversion core of the
vue-compiler repository.

The development shallowly embeds, in Lean 4:

* the two-way-binding directive converter `convert_v_model`
  (`crates/compiler/src/converter/v_model.rs`),
* the multi-pass tree transformation engine
  (`crates/compiler/src/transformer/mod.rs`), and
* the entity-collection pass `EntityCollector`
  (`crates/compiler/src/transformer/collect_entities.rs`).

External collaborators that the repository slice only declares (the parser
types, the `VStr` string utility, the expression-analysis primitives
`is_simple_identifier` / `rslint::is_member_expression`, and
`v_bind::get_non_empty_expr`) are either modelled from the specification or
taken as parameters, as documented on each definition.
-/

namespace VueCompiler

/-! ## Runtime helpers and flags

`RuntimeHelper` is the closed set of symbolic runtime-helper IDs (spec §1
treats the enumeration as opaque; the constructors below cover every helper
named in the source slice plus the vnode-creation helpers that the external
`get_vnode_call_helper` lookup can select). -/

inductive RuntimeHelper where
  | Fragment
  | OpenBlock
  | CreateElementBlock
  | CreateBlock
  | CreateVNode
  | CreateElementVNode
  | CreateComment
  | CreateText
  | RenderList
  | RenderSlot
  | WithDirectives
  | CreateSlots
  | WithCtx
  | ToDisplayString
deriving DecidableEq

/-- `StaticLevel` from `crate::flags`; only `NotStatic` is used by the slice. -/
inductive StaticLevel where
  | NotStatic
  | CanSkipPatch
  | CanHoist
  | CanStringify
deriving DecidableEq

/-- The helper collector is a set of runtime-helper IDs, duplicates
coalesced (spec §3 "Helper Collector"). -/
abbrev HelperCollector := Finset RuntimeHelper

/-- `HelperCollector::collect` records one helper as used. -/
def HelperCollector.collect (hc : HelperCollector) (h : RuntimeHelper) : HelperCollector :=
  insert h hc

/-! ## JS expressions

`JsExpr` embeds the `JsExpr` variants that the source slice constructs or
matches on: string literals, simple expressions with a static level, raw
source fragments, helper symbols and helper calls, compound expressions and
property lists.  Expressions are opaque leaves to the transform engine
(spec §3 "JS Expression"): the engine never descends into them. -/

inductive JsExpr where
  | StrLit (s : String)
  | Simple (s : String) (level : StaticLevel)
  | Src (s : String)
  | Symbol (h : RuntimeHelper)
  | Call (h : RuntimeHelper) (args : List JsExpr)
  | Compound (parts : List JsExpr)
  | Props (props : List (JsExpr × JsExpr))

/-- `Js::str_lit` smart constructor (from `crate::converter`, outside the
slice; it wraps a string into a string-literal expression). -/
def JsExpr.str_lit (s : String) : JsExpr := .StrLit s

/-- `Js::simple` smart constructor: a simple expression at the
`NotStatic` level. -/
def JsExpr.simple (s : String) : JsExpr := .Simple s .NotStatic

/-- A `Prop` of the converter is a key/value pair of JS expressions. -/
abbrev JsProp := JsExpr × JsExpr

/-! ## Parser-side data for directives

These types come from `crate::parser` / `crate::error`, which the slice only
imports.  They are modelled with exactly the structure the spec and the
`v_model.rs` code depend on. -/

/-- A source location (opaque to the converter; carried into diagnostics). -/
structure SourceLocation where
  first : Nat
  last : Nat
deriving DecidableEq

/-- An attribute value: the textual content of a bound expression together
with its own source location. -/
structure AttributeValue where
  content : String
  location : SourceLocation
deriving DecidableEq

/-- `DirectiveArg`: a static (literal string) or dynamic (expression)
directive argument. -/
inductive DirectiveArg where
  | Static (s : String)
  | Dynamic (s : String)
deriving DecidableEq

/-- A raw directive application before conversion (spec §3 "Directive"):
name, optional bound expression, ordered modifiers, optional argument and
head location. -/
structure Directive where
  name : String
  expression : Option AttributeValue
  modifiers : List String
  argument : Option DirectiveArg
  head_loc : SourceLocation
deriving DecidableEq

/-- `ElementType` tag classification from the parser; the converter only
distinguishes `Component` from the rest. -/
inductive ElementType where
  | Plain
  | Component
  | Template
  | SlotTemplate
deriving DecidableEq

/-- The owning element of a directive, as consumed by `convert_v_model`:
only its tag-type classification matters. -/
structure Element where
  tag_type : ElementType
deriving DecidableEq

/-- Diagnostic kinds used by the v-model converter
(`CompilationErrorKind`). -/
inductive CompilationErrorKind where
  | VModelNoExpression
  | VModelMalformedExpression
deriving DecidableEq

/-- A diagnostic: kind plus source location (`CompilationError`). -/
structure CompilationError where
  kind : CompilationErrorKind
  location : SourceLocation
deriving DecidableEq

/-- `DirectiveConvertResult` (spec §3 "Directive Conversion Result").  The
`runtime` field of `Converted` mirrors Rust's `Result<RuntimeHelper, bool>`:
`.ok h` retains the directive with runtime helper `h`, `.error b` carries
the need-runtime flag; `convert_v_model` returns `.error false`, i.e. the
directive is not retained as a generic runtime directive. -/
inductive DirectiveConvertResult (T : Type) where
  | Converted (value : T) (runtime : Except Bool RuntimeHelper)
  | Preserve
  | Dropped

abbrev CoreDirConvRet := DirectiveConvertResult JsExpr

/-- Modelled from the spec: `get_non_empty_expr` lives in
`converter/v_bind.rs`, which is outside the provided slice.  Spec §4.1
step 1 requires "a non-empty bound expression; if absent, report
`NoExpression` ... at the directive's head location": the function yields
the expression content and its location when present and non-empty, and
`none` together with the head location otherwise. -/
def get_non_empty_expr (expression : Option AttributeValue)
    (head_loc : SourceLocation) : Option String × SourceLocation :=
  match expression with
  | none => (none, head_loc)
  | some v => if v.content = "" then (none, head_loc) else (some v.content, v.location)

/-- The external expression-analysis primitives (spec §1 lists them as
out-of-scope collaborators, "interfaces only"): `is_simple_identifier` from
`crate::util` and `rslint::is_member_expression`.  They are taken as an
opaque parameter pair. -/
structure ExprChecks where
  is_simple_identifier : String → Bool
  rslint_member_expr : String → Bool

/-- `is_member_expression` from `v_model.rs`: a valid assignment target is
a simple identifier or an rslint member expression. -/
def is_member_expression (ck : ExprChecks) (expr : String) : Bool :=
  ck.is_simple_identifier expr || ck.rslint_member_expr expr

/-- `component_mods_prop` from `v_model.rs`: the extra `...Modifiers`
property emitted for a modifier-carrying `v-model` on a component.  The
static-argument key uses `VStr::suffix_mod`, which is outside the slice and
is modelled from the spec ("suffix-append if static") as appending the
string `Modifiers`. -/
def component_mods_prop (dir : Directive) (elem : Element) : Option JsProp :=
  -- only v-model on component need compile modifiers in the props
  -- native inputs have v-model inside the children
  if dir.modifiers.isEmpty || elem.tag_type ≠ ElementType.Component then
    none
  else
    let modifiers_key := match dir.argument with
      | some (.Static s) => JsExpr.StrLit (s ++ "Modifiers")
      | some (.Dynamic d) =>
        JsExpr.Compound [JsExpr.simple d, JsExpr.Src " + \x27Modifiers\x27"]
      | none => JsExpr.str_lit "modelModifiers"
    let mod_value := dir.modifiers.map fun s => (JsExpr.str_lit s, JsExpr.Src "true")
    some (modifiers_key, JsExpr.Props mod_value)

/-- `convert_v_model` from `v_model.rs`.  The Rust function reports
diagnostics through an injected `ErrorHandler`; here the diagnostics are
returned alongside the conversion result. -/
def convert_v_model (ck : ExprChecks) (dir : Directive) (element : Element) :
    CoreDirConvRet × List CompilationError :=
  let (expr_val, loc) := get_non_empty_expr dir.expression dir.head_loc
  match expr_val with
  | none =>
    (.Dropped, [⟨.VModelNoExpression, loc⟩])
  | some val =>
    if !is_member_expression ck val then
      (.Dropped, [⟨.VModelMalformedExpression, loc⟩])
    else
      let prop_name := match dir.argument with
        | some (.Static s) => JsExpr.str_lit s
        | some (.Dynamic d) => JsExpr.simple d
        | none => JsExpr.str_lit "modelValue"
      let props := [(prop_name, JsExpr.Simple val .NotStatic)]
      let props := match component_mods_prop dir element with
        | some mods => props ++ [mods]
        | none => props
      (.Converted (.Props props) (.error false), [])

/-! ## The IR node model

The recursive tagged-union node graph from `crate::converter` (spec §3),
instantiated at the base convert info: text payloads are expression lists,
comment payloads are strings, expressions are `JsExpr`.  The converter
module itself is outside the provided slice; the shapes below follow the
spec's data model together with the fields the transformer and the entity
collector access.  The `AlterableSlot` payload (a slot function) is
modelled from the spec ("each itself a full IR node"); the transformer
never inspects it. -/

/-- A runtime directive binding attached to a vnode (spec §3 "Runtime
Directive Binding"). -/
inductive RuntimeDir where
  | mk (name : JsExpr) (expr : Option JsExpr) (arg : Option JsExpr) (mods : Option JsExpr)

mutual
inductive IRNode where
  | TextCall (texts : List JsExpr)
  | If (i : IfNodeIR)
  | For (f : ForNodeIR)
  | VNodeCall (v : VNodeIR)
  | RenderSlotCall (r : RenderSlotIR)
  | CommentCall (c : String)
  | VSlotUse (s : VSlotIR)
  | AlterableSlot (a : SlotFnIR)
inductive IfNodeIR where
  | mk (branches : List IfBranch)
inductive IfBranch where
  | mk (condition : Option JsExpr) (child : IRNode)
inductive ForNodeIR where
  | mk (source : JsExpr) (value : Option JsExpr) (key : Option JsExpr)
       (index : Option JsExpr) (child : IRNode)
inductive VNodeIR where
  | mk (tag : JsExpr) (props : Option JsExpr) (children : List IRNode)
       (directives : List RuntimeDir) (is_block : Bool)
inductive RenderSlotIR where
  | mk (slot_name : JsExpr) (slot_props : Option JsExpr) (fallbacks : List IRNode)
inductive VSlotIR where
  | mk (stable_slots : List SlotFnIR) (alterable_slots : List IRNode)
inductive SlotFnIR where
  | mk (name : JsExpr) (body : List IRNode)
end

def RuntimeDir.name : RuntimeDir → JsExpr
  | .mk n _ _ _ => n

def RuntimeDir.expr : RuntimeDir → Option JsExpr
  | .mk _ e _ _ => e

def RuntimeDir.arg : RuntimeDir → Option JsExpr
  | .mk _ _ a _ => a

def RuntimeDir.mods : RuntimeDir → Option JsExpr
  | .mk _ _ _ m => m

def IfNodeIR.branches : IfNodeIR → List IfBranch
  | .mk bs => bs

def IfBranch.condition : IfBranch → Option JsExpr
  | .mk c _ => c

def IfBranch.child : IfBranch → IRNode
  | .mk _ ch => ch

def ForNodeIR.source : ForNodeIR → JsExpr
  | .mk s _ _ _ _ => s

def ForNodeIR.child : ForNodeIR → IRNode
  | .mk _ _ _ _ ch => ch

def VNodeIR.tag : VNodeIR → JsExpr
  | .mk t _ _ _ _ => t

def VNodeIR.props : VNodeIR → Option JsExpr
  | .mk _ p _ _ _ => p

def VNodeIR.children : VNodeIR → List IRNode
  | .mk _ _ cs _ _ => cs

def VNodeIR.directives : VNodeIR → List RuntimeDir
  | .mk _ _ _ ds _ => ds

def VNodeIR.is_block : VNodeIR → Bool
  | .mk _ _ _ _ b => b

def RenderSlotIR.slot_name : RenderSlotIR → JsExpr
  | .mk n _ _ => n

def RenderSlotIR.slot_props : RenderSlotIR → Option JsExpr
  | .mk _ p _ => p

def RenderSlotIR.fallbacks : RenderSlotIR → List IRNode
  | .mk _ _ f => f

def VSlotIR.stable_slots : VSlotIR → List SlotFnIR
  | .mk ss _ => ss

def VSlotIR.alterable_slots : VSlotIR → List IRNode
  | .mk _ als => als

def SlotFnIR.name : SlotFnIR → JsExpr
  | .mk n _ => n

def SlotFnIR.body : SlotFnIR → List IRNode
  | .mk _ b => b

/-- The IR root: a top-level node sequence (`IRRoot` / `BaseRoot`). -/
structure IRRoot where
  body : List IRNode

/-! ## The transform pass interface and engine

`CoreTransformPass` (transformer/mod.rs) is a capability record of paired
enter/exit hooks, each with a no-op default.  A Rust hook receives `&mut
self` and a `&mut` node and may mutate both; here a hook maps the pass
state and the payload to their updated values.  Heterogeneous pass state is
modelled by running every registered pass over one shared state type `σ`
(each concrete pass reads and writes only its own part of it).
`collect_entities.rs` additionally implements an `exit_root` hook, which
the engine of `transformer/mod.rs` never invokes (its `transform_root`
only calls `transform_children`); the hook is kept so the collector can be
embedded faithfully. -/

structure TPass (σ : Type) where
  enter_children : σ → List IRNode → σ × List IRNode := fun s x => (s, x)
  exit_children : σ → List IRNode → σ × List IRNode := fun s x => (s, x)
  enter_text : σ → List JsExpr → σ × List JsExpr := fun s x => (s, x)
  exit_text : σ → List JsExpr → σ × List JsExpr := fun s x => (s, x)
  enter_if : σ → IfNodeIR → σ × IfNodeIR := fun s x => (s, x)
  exit_if : σ → IfNodeIR → σ × IfNodeIR := fun s x => (s, x)
  enter_for : σ → ForNodeIR → σ × ForNodeIR := fun s x => (s, x)
  exit_for : σ → ForNodeIR → σ × ForNodeIR := fun s x => (s, x)
  enter_vnode : σ → VNodeIR → σ × VNodeIR := fun s x => (s, x)
  exit_vnode : σ → VNodeIR → σ × VNodeIR := fun s x => (s, x)
  enter_slot_outlet : σ → RenderSlotIR → σ × RenderSlotIR := fun s x => (s, x)
  exit_slot_outlet : σ → RenderSlotIR → σ × RenderSlotIR := fun s x => (s, x)
  enter_v_slot : σ → VSlotIR → σ × VSlotIR := fun s x => (s, x)
  exit_v_slot : σ → VSlotIR → σ × VSlotIR := fun s x => (s, x)
  enter_js_expr : σ → JsExpr → σ × JsExpr := fun s x => (s, x)
  exit_js_expr : σ → JsExpr → σ × JsExpr := fun s x => (s, x)
  enter_comment : σ → String → σ × String := fun s x => (s, x)
  exit_comment : σ → String → σ × String := fun s x => (s, x)
  exit_root : σ → IRRoot → σ × IRRoot := fun s x => (s, x)

/-- `CoreTransformer::enter`: run a hook of every pass in registration
order, threading state and payload. -/
def runEnter {σ α : Type} (ps : List (TPass σ)) (hook : TPass σ → σ → α → σ × α)
    (s : σ) (x : α) : σ × α :=
  ps.foldl (fun acc p => hook p acc.1 acc.2) (s, x)

/-- `CoreTransformer::exit`: run a hook of every pass in reverse
registration order. -/
def runExit {σ α : Type} (ps : List (TPass σ)) (hook : TPass σ → σ → α → σ × α)
    (s : σ) (x : α) : σ × α :=
  ps.reverse.foldl (fun acc p => hook p acc.1 acc.2) (s, x)

/-- The fatal outcome of the engine: `.fatal` is the
`panic!("should not call")` branch of `transform_ir` on `AlterableSlot`;
`.outOfFuel` is an artifact of making the recursion total with fuel. -/
inductive TFatal where
  | fatal
  | outOfFuel
deriving DecidableEq

/-- `transform_text`: enter/exit hooks only, no descent. -/
def transform_text {σ : Type} (ps : List (TPass σ)) (s : σ) (t : List JsExpr) :
    σ × List JsExpr :=
  let (s, t) := runEnter ps (fun p => p.enter_text) s t
  runExit ps (fun p => p.exit_text) s t

/-- `transform_js_expr`: expressions are opaque leaves, enter/exit hooks
only. -/
def transform_js_expr {σ : Type} (ps : List (TPass σ)) (s : σ) (e : JsExpr) :
    σ × JsExpr :=
  let (s, e) := runEnter ps (fun p => p.enter_js_expr) s e
  runExit ps (fun p => p.exit_js_expr) s e

/-- `transform_comment`: enter/exit hooks only. -/
def transform_comment {σ : Type} (ps : List (TPass σ)) (s : σ) (c : String) :
    σ × String :=
  let (s, c) := runEnter ps (fun p => p.enter_comment) s c
  runExit ps (fun p => p.exit_comment) s c

/-- Helper threading `transform_js_expr` through an optional slot. -/
def transform_opt_js_expr {σ : Type} (ps : List (TPass σ)) (s : σ) :
    Option JsExpr → σ × Option JsExpr
  | none => (s, none)
  | some e =>
    let (s, e) := transform_js_expr ps s e
    (s, some e)

/-- `transform_runtime_dir`: name, then optional expr, arg and mods, all as
expression slots. -/
def transform_runtime_dir {σ : Type} (ps : List (TPass σ)) (s : σ) (dir : RuntimeDir) :
    σ × RuntimeDir :=
  match dir with
  | .mk name expr arg mods =>
    let (s, name) := transform_js_expr ps s name
    let (s, expr) := transform_opt_js_expr ps s expr
    let (s, arg) := transform_opt_js_expr ps s arg
    let (s, mods) := transform_opt_js_expr ps s mods
    (s, .mk name expr arg mods)

/-- The runtime-directive loop of `transform_vnode`. -/
def transform_dirs {σ : Type} (ps : List (TPass σ)) (s : σ) :
    List RuntimeDir → σ × List RuntimeDir
  | [] => (s, [])
  | d :: rest =>
    let (s, d) := transform_runtime_dir ps s d
    let (s, rest) := transform_dirs ps s rest
    (s, d :: rest)

mutual
/-- `transform_ir`: dispatch on node shape; `AlterableSlot` reaching this
dispatch is the fatal `panic!("should not call")` branch, embedded as the
`.fatal` error. -/
def transform_ir {σ : Type} (ps : List (TPass σ)) :
    Nat → σ → IRNode → Except TFatal (σ × IRNode)
  | 0, _, _ => .error .outOfFuel
  | fuel+1, s, n =>
    match n with
    | .TextCall t =>
      let (s, t) := transform_text ps s t
      .ok (s, .TextCall t)
    | .If i => do
      let (s, i) ← transform_if ps fuel s i
      pure (s, .If i)
    | .For f => do
      let (s, f) ← transform_for ps fuel s f
      pure (s, .For f)
    | .VNodeCall v => do
      let (s, v) ← transform_vnode ps fuel s v
      pure (s, .VNodeCall v)
    | .RenderSlotCall r => do
      let (s, r) ← transform_slot_outlet ps fuel s r
      pure (s, .RenderSlotCall r)
    | .CommentCall c =>
      let (s, c) := transform_comment ps s c
      .ok (s, .CommentCall c)
    | .VSlotUse sl => do
      let (s, sl) ← transform_v_slot ps fuel s sl
      pure (s, .VSlotUse sl)
    | .AlterableSlot _ => .error .fatal

/-- `transform_children`: enter-children hooks on the whole sequence, then
each child through `transform_ir` in order, then exit-children hooks. -/
def transform_children {σ : Type} (ps : List (TPass σ)) :
    Nat → σ → List IRNode → Except TFatal (σ × List IRNode)
  | 0, _, _ => .error .outOfFuel
  | fuel+1, s, cs => do
    let (s, cs) := runEnter ps (fun p => p.enter_children) s cs
    let (s, cs) ← transform_ir_list ps fuel s cs
    pure (runExit ps (fun p => p.exit_children) s cs)

/-- The plain child loop: `transform_ir` on each element in order (used by
`transform_children` and for alterable slots, which the engine feeds
straight to `transform_ir`). -/
def transform_ir_list {σ : Type} (ps : List (TPass σ)) :
    Nat → σ → List IRNode → Except TFatal (σ × List IRNode)
  | 0, _, _ => .error .outOfFuel
  | _fuel+1, s, [] => .ok (s, [])
  | fuel+1, s, c :: rest => do
    let (s, c) ← transform_ir ps fuel s c
    let (s, rest) ← transform_ir_list ps fuel s rest
    pure (s, c :: rest)

/-- `transform_if`: enter hooks, then per branch the optional condition as
an expression slot and the child node, then exit hooks. -/
def transform_if {σ : Type} (ps : List (TPass σ)) :
    Nat → σ → IfNodeIR → Except TFatal (σ × IfNodeIR)
  | 0, _, _ => .error .outOfFuel
  | fuel+1, s, i => do
    let (s, i) := runEnter ps (fun p => p.enter_if) s i
    let (s, bs) ← transform_branches ps fuel s i.branches
    pure (runExit ps (fun p => p.exit_if) s (.mk bs))

/-- The branch loop of `transform_if`. -/
def transform_branches {σ : Type} (ps : List (TPass σ)) :
    Nat → σ → List IfBranch → Except TFatal (σ × List IfBranch)
  | 0, _, _ => .error .outOfFuel
  | _fuel+1, s, [] => .ok (s, [])
  | fuel+1, s, .mk cond child :: rest => do
    let (s, cond) := match cond with
      | some c =>
        let (s, c) := transform_js_expr ps s c
        (s, some c)
      | none => (s, none)
    let (s, child) ← transform_ir ps fuel s child
    let (s, rest) ← transform_branches ps fuel s rest
    pure (s, IfBranch.mk cond child :: rest)

/-- `transform_for`: enter hooks, the source expression, the child node,
exit hooks.  The value/key/index bindings are not visited (`TODO` in the
source). -/
def transform_for {σ : Type} (ps : List (TPass σ)) :
    Nat → σ → ForNodeIR → Except TFatal (σ × ForNodeIR)
  | 0, _, _ => .error .outOfFuel
  | fuel+1, s, f => do
    let (s, f) := runEnter ps (fun p => p.enter_for) s f
    match f with
    | .mk source value key index child =>
      let (s, source) := transform_js_expr ps s source
      let (s, child) ← transform_ir ps fuel s child
      pure (runExit ps (fun p => p.exit_for) s (.mk source value key index child))

/-- `transform_vnode`: enter hooks, tag, optional props, children (with
children hooks), each runtime directive, exit hooks. -/
def transform_vnode {σ : Type} (ps : List (TPass σ)) :
    Nat → σ → VNodeIR → Except TFatal (σ × VNodeIR)
  | 0, _, _ => .error .outOfFuel
  | fuel+1, s, v => do
    let (s, v) := runEnter ps (fun p => p.enter_vnode) s v
    match v with
    | .mk tag props children directives is_blk =>
      let (s, tag) := transform_js_expr ps s tag
      let (s, props) := transform_opt_js_expr ps s props
      let (s, children) ← transform_children ps fuel s children
      let (s, directives) := transform_dirs ps s directives
      pure (runExit ps (fun p => p.exit_vnode) s (.mk tag props children directives is_blk))

/-- `transform_slot_outlet`: enter hooks, slot name, optional slot props,
fallback children (with children hooks), exit hooks. -/
def transform_slot_outlet {σ : Type} (ps : List (TPass σ)) :
    Nat → σ → RenderSlotIR → Except TFatal (σ × RenderSlotIR)
  | 0, _, _ => .error .outOfFuel
  | fuel+1, s, r => do
    let (s, r) := runEnter ps (fun p => p.enter_slot_outlet) s r
    match r with
    | .mk slot_name slot_props fallbacks =>
      let (s, slot_name) := transform_js_expr ps s slot_name
      let (s, slot_props) := transform_opt_js_expr ps s slot_props
      let (s, fallbacks) ← transform_children ps fuel s fallbacks
      pure (runExit ps (fun p => p.exit_slot_outlet) s (.mk slot_name slot_props fallbacks))

/-- `transform_v_slot`: enter hooks, each stable slot's name expression and
body children, each alterable slot straight through `transform_ir`, exit
hooks. -/
def transform_v_slot {σ : Type} (ps : List (TPass σ)) :
    Nat → σ → VSlotIR → Except TFatal (σ × VSlotIR)
  | 0, _, _ => .error .outOfFuel
  | fuel+1, s, sl => do
    let (s, sl) := runEnter ps (fun p => p.enter_v_slot) s sl
    match sl with
    | .mk stable alterable =>
      let (s, stable) ← transform_stable_slots ps fuel s stable
      let (s, alterable) ← transform_ir_list ps fuel s alterable
      pure (runExit ps (fun p => p.exit_v_slot) s (.mk stable alterable))

/-- The stable-slot loop of `transform_v_slot`. -/
def transform_stable_slots {σ : Type} (ps : List (TPass σ)) :
    Nat → σ → List SlotFnIR → Except TFatal (σ × List SlotFnIR)
  | 0, _, _ => .error .outOfFuel
  | _fuel+1, s, [] => .ok (s, [])
  | fuel+1, s, .mk name body :: rest => do
    let (s, name) := transform_js_expr ps s name
    let (s, body) ← transform_children ps fuel s body
    let (s, rest) ← transform_stable_slots ps fuel s rest
    pure (s, SlotFnIR.mk name body :: rest)
end

/-- `transform_root` / `Transformer::transform` for `BaseTransformer`: the
root's body goes through `transform_children`; the engine invokes no root
hooks. -/
def transform_root {σ : Type} (ps : List (TPass σ)) (fuel : Nat) (s : σ)
    (root : IRRoot) : Except TFatal (σ × IRRoot) := do
  let (s, body) ← transform_children ps fuel s root.body
  pure (s, ⟨body⟩)

/-! ## The entity collector pass -/

/-- The state owned by the `EntityCollector` pass: the helper set and the
component/directive asset lists (`collect_entities.rs`). -/
structure CollectorState where
  helper : HelperCollector
  components : List String
  directives : List String

/-- `EntityCollector` as a `CoreTransformPass` implementation
(`collect_entities.rs`): every hook is an exit hook.  The call-shape helper
selection `get_vnode_call_helper` lives in `crate::util`, outside the
slice, and is taken as the parameter `gvch` (spec §4.4 treats it as an
external pure lookup). -/
def EntityCollector (gvch : VNodeIR → RuntimeHelper) : TPass CollectorState where
  exit_root := fun s r =>
    (if r.body.length > 1 then {s with helper := s.helper.collect .Fragment} else s, r)
  exit_js_expr := fun s e =>
    (match e with
     | .Call h _ => {s with helper := s.helper.collect h}
     | .Symbol h => {s with helper := s.helper.collect h}
     | _ => s, e)
  exit_if := fun s i =>
    (if i.branches.all (fun b => b.condition.isSome) then
      {s with helper := s.helper.collect .CreateComment}
    else s, i)
  exit_for := fun s f =>
    ({s with helper :=
      (((s.helper.collect .OpenBlock).collect .CreateElementBlock).collect
        .RenderList).collect .Fragment}, f)
  exit_vnode := fun s v =>
    let s := if !v.directives.isEmpty then
        {s with helper := s.helper.collect .WithDirectives}
      else s
    let s := if v.is_block then {s with helper := s.helper.collect .OpenBlock} else s
    ({s with helper := s.helper.collect (gvch v)}, v)
  exit_slot_outlet := fun s r => ({s with helper := s.helper.collect .RenderSlot}, r)
  exit_v_slot := fun s sl =>
    let s := if !sl.alterable_slots.isEmpty then
        {s with helper := s.helper.collect .CreateSlots}
      else s
    ({s with helper := s.helper.collect .WithCtx}, sl)
  exit_comment := fun s c => ({s with helper := s.helper.collect .CreateComment}, c)

/-! ## Pure mirror of a collector run

`collect_ir` and friends compute, as pure functions of the tree, the set of
helpers an `EntityCollector` run gathers, with the same fuel discipline and
the same fatal branch as the engine.  The master lemma below proves that a
transformer run with the collector as only pass is exactly: leave the tree
unchanged, leave the asset lists unchanged, and union this set into the
helper set. -/

/-- Helpers contributed by the collector's `exit_js_expr` hook on one
expression leaf. -/
def collect_js_expr : JsExpr → Finset RuntimeHelper
  | .Call h _ => {h}
  | .Symbol h => {h}
  | _ => ∅

def collect_opt_js_expr : Option JsExpr → Finset RuntimeHelper
  | none => ∅
  | some e => collect_js_expr e

def collect_runtime_dir (d : RuntimeDir) : Finset RuntimeHelper :=
  collect_js_expr d.name ∪ collect_opt_js_expr d.expr ∪ collect_opt_js_expr d.arg ∪
    collect_opt_js_expr d.mods

def collect_dirs : List RuntimeDir → Finset RuntimeHelper
  | [] => ∅
  | d :: rest => collect_runtime_dir d ∪ collect_dirs rest

mutual
def collect_ir (g : VNodeIR → RuntimeHelper) : Nat → IRNode → Except TFatal (Finset RuntimeHelper)
  | 0, _ => .error .outOfFuel
  | fuel+1, n =>
    match n with
    | .TextCall _ => .ok ∅
    | .If i => collect_if g fuel i
    | .For f => collect_for g fuel f
    | .VNodeCall v => collect_vnode g fuel v
    | .RenderSlotCall r => collect_slot_outlet g fuel r
    | .CommentCall _ => .ok {RuntimeHelper.CreateComment}
    | .VSlotUse sl => collect_v_slot g fuel sl
    | .AlterableSlot _ => .error .fatal

def collect_children (g : VNodeIR → RuntimeHelper) : Nat → List IRNode → Except TFatal (Finset RuntimeHelper)
  | 0, _ => .error .outOfFuel
  | fuel+1, cs => collect_ir_list g fuel cs

def collect_ir_list (g : VNodeIR → RuntimeHelper) : Nat → List IRNode → Except TFatal (Finset RuntimeHelper)
  | 0, _ => .error .outOfFuel
  | _fuel+1, [] => .ok ∅
  | fuel+1, c :: rest => do
    let h ← collect_ir g fuel c
    let hr ← collect_ir_list g fuel rest
    pure (h ∪ hr)

def collect_if (g : VNodeIR → RuntimeHelper) : Nat → IfNodeIR → Except TFatal (Finset RuntimeHelper)
  | 0, _ => .error .outOfFuel
  | fuel+1, i => do
    let hb ← collect_branches g fuel i.branches
    pure (hb ∪ (if i.branches.all (fun b => b.condition.isSome) then
      {RuntimeHelper.CreateComment} else ∅))

def collect_branches (g : VNodeIR → RuntimeHelper) : Nat → List IfBranch → Except TFatal (Finset RuntimeHelper)
  | 0, _ => .error .outOfFuel
  | _fuel+1, [] => .ok ∅
  | fuel+1, .mk cond child :: rest => do
    let h ← collect_ir g fuel child
    let hr ← collect_branches g fuel rest
    pure (collect_opt_js_expr cond ∪ h ∪ hr)

def collect_for (g : VNodeIR → RuntimeHelper) : Nat → ForNodeIR → Except TFatal (Finset RuntimeHelper)
  | 0, _ => .error .outOfFuel
  | fuel+1, f => do
    let h ← collect_ir g fuel f.child
    pure (collect_js_expr f.source ∪ h ∪
      {RuntimeHelper.OpenBlock, RuntimeHelper.CreateElementBlock,
       RuntimeHelper.RenderList, RuntimeHelper.Fragment})

def collect_vnode (g : VNodeIR → RuntimeHelper) : Nat → VNodeIR → Except TFatal (Finset RuntimeHelper)
  | 0, _ => .error .outOfFuel
  | fuel+1, v => do
    let hc ← collect_children g fuel v.children
    pure (collect_js_expr v.tag ∪ collect_opt_js_expr v.props ∪ hc ∪
      collect_dirs v.directives ∪
      (if !v.directives.isEmpty then {RuntimeHelper.WithDirectives} else ∅) ∪
      (if v.is_block then {RuntimeHelper.OpenBlock} else ∅) ∪ {g v})

def collect_slot_outlet (g : VNodeIR → RuntimeHelper) : Nat → RenderSlotIR → Except TFatal (Finset RuntimeHelper)
  | 0, _ => .error .outOfFuel
  | fuel+1, r => do
    let hf ← collect_children g fuel r.fallbacks
    pure (collect_js_expr r.slot_name ∪ collect_opt_js_expr r.slot_props ∪ hf ∪
      {RuntimeHelper.RenderSlot})

def collect_v_slot (g : VNodeIR → RuntimeHelper) : Nat → VSlotIR → Except TFatal (Finset RuntimeHelper)
  | 0, _ => .error .outOfFuel
  | fuel+1, sl => do
    let hs ← collect_stable_slots g fuel sl.stable_slots
    let ha ← collect_ir_list g fuel sl.alterable_slots
    pure (hs ∪ ha ∪
      (if !sl.alterable_slots.isEmpty then {RuntimeHelper.CreateSlots} else ∅) ∪
      {RuntimeHelper.WithCtx})

def collect_stable_slots (g : VNodeIR → RuntimeHelper) : Nat → List SlotFnIR → Except TFatal (Finset RuntimeHelper)
  | 0, _ => .error .outOfFuel
  | _fuel+1, [] => .ok ∅
  | fuel+1, .mk nm body :: rest => do
    let h ← collect_children g fuel body
    let hr ← collect_stable_slots g fuel rest
    pure (collect_js_expr nm ∪ h ∪ hr)
end

/-! ## Syntactic occurrence predicates

`HasForNode n` holds when a `For` node occurs in `n` at a position the
transformer traverses; `HasAlterableNode n` holds when an `AlterableSlot`
variant occurs at a traversed position (including as an element of an
alterable-slots list, which `transform_v_slot` feeds straight to
`transform_ir`). -/

inductive HasForNode : IRNode → Prop where
  | here (f : ForNodeIR) : HasForNode (.For f)
  | ifBranch {i : IfNodeIR} {b : IfBranch} (hb : b ∈ i.branches)
      (h : HasForNode b.child) : HasForNode (.If i)
  | forChild {f : ForNodeIR} (h : HasForNode f.child) : HasForNode (.For f)
  | vnodeChild {v : VNodeIR} {c : IRNode} (hc : c ∈ v.children)
      (h : HasForNode c) : HasForNode (.VNodeCall v)
  | slotFallback {r : RenderSlotIR} {c : IRNode} (hc : c ∈ r.fallbacks)
      (h : HasForNode c) : HasForNode (.RenderSlotCall r)
  | stableSlotBody {sl : VSlotIR} {sfn : SlotFnIR} {c : IRNode}
      (hs : sfn ∈ sl.stable_slots) (hc : c ∈ sfn.body)
      (h : HasForNode c) : HasForNode (.VSlotUse sl)
  | alterableSlot {sl : VSlotIR} {c : IRNode} (hc : c ∈ sl.alterable_slots)
      (h : HasForNode c) : HasForNode (.VSlotUse sl)

inductive HasAlterableNode : IRNode → Prop where
  | here (a : SlotFnIR) : HasAlterableNode (.AlterableSlot a)
  | ifBranch {i : IfNodeIR} {b : IfBranch} (hb : b ∈ i.branches)
      (h : HasAlterableNode b.child) : HasAlterableNode (.If i)
  | forChild {f : ForNodeIR} (h : HasAlterableNode f.child) : HasAlterableNode (.For f)
  | vnodeChild {v : VNodeIR} {c : IRNode} (hc : c ∈ v.children)
      (h : HasAlterableNode c) : HasAlterableNode (.VNodeCall v)
  | slotFallback {r : RenderSlotIR} {c : IRNode} (hc : c ∈ r.fallbacks)
      (h : HasAlterableNode c) : HasAlterableNode (.RenderSlotCall r)
  | stableSlotBody {sl : VSlotIR} {sfn : SlotFnIR} {c : IRNode}
      (hs : sfn ∈ sl.stable_slots) (hc : c ∈ sfn.body)
      (h : HasAlterableNode c) : HasAlterableNode (.VSlotUse sl)
  | alterableSlot {sl : VSlotIR} {c : IRNode} (hc : c ∈ sl.alterable_slots)
      (h : HasAlterableNode c) : HasAlterableNode (.VSlotUse sl)

/-- The helper set that the For-exit rule installs unconditionally. -/
def forLoopHelpers : Finset RuntimeHelper :=
  {RuntimeHelper.OpenBlock, RuntimeHelper.CreateElementBlock,
   RuntimeHelper.RenderList, RuntimeHelper.Fragment}

/-! ## Observation passes for the traversal order

`logPass i` is a pass whose every hook appends one event, tagged with the
pass id `i`, the phase and the hooked shape, to a shared event log and
returns the payload unchanged.  Two such passes registered as `[logPass 0,
logPass 1]` observe the engine's hook dispatch order. -/

inductive HookShape where
  | childrenList
  | text
  | ifShape
  | forShape
  | vnode
  | slotOutlet
  | vSlot
  | jsExpr
  | comment
  | alterable
deriving DecidableEq

inductive HookPhase where
  | enter
  | exit
deriving DecidableEq

structure HookEvent where
  passId : Nat
  phase : HookPhase
  shape : HookShape
deriving DecidableEq

/-- The per-shape hook family a node of each shape is dispatched to. -/
def shapeOf : IRNode → HookShape
  | .TextCall _ => .text
  | .If _ => .ifShape
  | .For _ => .forShape
  | .VNodeCall _ => .vnode
  | .RenderSlotCall _ => .slotOutlet
  | .CommentCall _ => .comment
  | .VSlotUse _ => .vSlot
  | .AlterableSlot _ => .alterable

def logPass (i : Nat) : TPass (List HookEvent) where
  enter_children := fun s x => (s ++ [⟨i, .enter, .childrenList⟩], x)
  exit_children := fun s x => (s ++ [⟨i, .exit, .childrenList⟩], x)
  enter_text := fun s x => (s ++ [⟨i, .enter, .text⟩], x)
  exit_text := fun s x => (s ++ [⟨i, .exit, .text⟩], x)
  enter_if := fun s x => (s ++ [⟨i, .enter, .ifShape⟩], x)
  exit_if := fun s x => (s ++ [⟨i, .exit, .ifShape⟩], x)
  enter_for := fun s x => (s ++ [⟨i, .enter, .forShape⟩], x)
  exit_for := fun s x => (s ++ [⟨i, .exit, .forShape⟩], x)
  enter_vnode := fun s x => (s ++ [⟨i, .enter, .vnode⟩], x)
  exit_vnode := fun s x => (s ++ [⟨i, .exit, .vnode⟩], x)
  enter_slot_outlet := fun s x => (s ++ [⟨i, .enter, .slotOutlet⟩], x)
  exit_slot_outlet := fun s x => (s ++ [⟨i, .exit, .slotOutlet⟩], x)
  enter_v_slot := fun s x => (s ++ [⟨i, .enter, .vSlot⟩], x)
  exit_v_slot := fun s x => (s ++ [⟨i, .exit, .vSlot⟩], x)
  enter_js_expr := fun s x => (s ++ [⟨i, .enter, .jsExpr⟩], x)
  exit_js_expr := fun s x => (s ++ [⟨i, .exit, .jsExpr⟩], x)
  enter_comment := fun s x => (s ++ [⟨i, .enter, .comment⟩], x)
  exit_comment := fun s x => (s ++ [⟨i, .exit, .comment⟩], x)

/-- The enter/descend/exit event bracket the two observation passes emit
around the sub-traversal events `mid` of a node of shape `sh`. -/
def sandwich (sh : HookShape) (mid : List HookEvent) : List HookEvent :=
  [⟨0, .enter, sh⟩, ⟨1, .enter, sh⟩] ++ mid ++ [⟨1, .exit, sh⟩, ⟨0, .exit, sh⟩]

/-! Pure mirror of a `[logPass 0, logPass 1]` run, with the same fuel
discipline and fatal branch as the engine. -/

def logOpt : Option JsExpr → List HookEvent
  | none => []
  | some _ => sandwich .jsExpr []

def log_runtime_dir (d : RuntimeDir) : List HookEvent :=
  sandwich .jsExpr [] ++ logOpt d.expr ++ logOpt d.arg ++ logOpt d.mods

def log_dirs : List RuntimeDir → List HookEvent
  | [] => []
  | d :: rest => log_runtime_dir d ++ log_dirs rest

mutual
def log_ir : Nat → IRNode → Except TFatal (List HookEvent)
  | 0, _ => .error .outOfFuel
  | fuel+1, n =>
    match n with
    | .TextCall _ => .ok (sandwich .text [])
    | .If i => log_if fuel i
    | .For f => log_for fuel f
    | .VNodeCall v => log_vnode fuel v
    | .RenderSlotCall r => log_slot_outlet fuel r
    | .CommentCall _ => .ok (sandwich .comment [])
    | .VSlotUse sl => log_v_slot fuel sl
    | .AlterableSlot _ => .error .fatal

def log_children : Nat → List IRNode → Except TFatal (List HookEvent)
  | 0, _ => .error .outOfFuel
  | fuel+1, cs => do
    let l ← log_ir_list fuel cs
    pure (sandwich .childrenList l)

def log_ir_list : Nat → List IRNode → Except TFatal (List HookEvent)
  | 0, _ => .error .outOfFuel
  | _fuel+1, [] => .ok []
  | fuel+1, c :: rest => do
    let l ← log_ir fuel c
    let lr ← log_ir_list fuel rest
    pure (l ++ lr)

def log_if : Nat → IfNodeIR → Except TFatal (List HookEvent)
  | 0, _ => .error .outOfFuel
  | fuel+1, i => do
    let lb ← log_branches fuel i.branches
    pure (sandwich .ifShape lb)

def log_branches : Nat → List IfBranch → Except TFatal (List HookEvent)
  | 0, _ => .error .outOfFuel
  | _fuel+1, [] => .ok []
  | fuel+1, .mk cond child :: rest => do
    let l ← log_ir fuel child
    let lr ← log_branches fuel rest
    pure (logOpt cond ++ l ++ lr)

def log_for : Nat → ForNodeIR → Except TFatal (List HookEvent)
  | 0, _ => .error .outOfFuel
  | fuel+1, f => do
    let l ← log_ir fuel f.child
    pure (sandwich .forShape (sandwich .jsExpr [] ++ l))

def log_vnode : Nat → VNodeIR → Except TFatal (List HookEvent)
  | 0, _ => .error .outOfFuel
  | fuel+1, v => do
    let lc ← log_children fuel v.children
    pure (sandwich .vnode
      (sandwich .jsExpr [] ++ logOpt v.props ++ lc ++ log_dirs v.directives))

def log_slot_outlet : Nat → RenderSlotIR → Except TFatal (List HookEvent)
  | 0, _ => .error .outOfFuel
  | fuel+1, r => do
    let lf ← log_children fuel r.fallbacks
    pure (sandwich .slotOutlet (sandwich .jsExpr [] ++ logOpt r.slot_props ++ lf))

def log_v_slot : Nat → VSlotIR → Except TFatal (List HookEvent)
  | 0, _ => .error .outOfFuel
  | fuel+1, sl => do
    let ls ← log_stable_slots fuel sl.stable_slots
    let la ← log_ir_list fuel sl.alterable_slots
    pure (sandwich .vSlot (ls ++ la))

def log_stable_slots : Nat → List SlotFnIR → Except TFatal (List HookEvent)
  | 0, _ => .error .outOfFuel
  | _fuel+1, [] => .ok []
  | fuel+1, .mk _nm body :: rest => do
    let lb ← log_children fuel body
    let lr ← log_stable_slots fuel rest
    pure (sandwich .jsExpr [] ++ lb ++ lr)
end

/-! ## Characterization of a collector run -/

theorem insert_as_union (a : RuntimeHelper) (s : Finset RuntimeHelper) :
    insert a s = s ∪ {a} := by
  ext x
  simp [or_comm]

theorem transform_text_collector (g : VNodeIR → RuntimeHelper) (s : CollectorState)
    (t : List JsExpr) : transform_text [EntityCollector g] s t = (s, t) := rfl

theorem transform_js_expr_collector (g : VNodeIR → RuntimeHelper) (s : CollectorState)
    (e : JsExpr) :
    transform_js_expr [EntityCollector g] s e =
      ({s with helper := s.helper ∪ collect_js_expr e}, e) := by
  cases e <;>
    simp [transform_js_expr, runEnter, runExit, EntityCollector, collect_js_expr,
      HelperCollector.collect, insert_as_union]

theorem transform_opt_js_expr_collector (g : VNodeIR → RuntimeHelper) (s : CollectorState)
    (e : Option JsExpr) :
    transform_opt_js_expr [EntityCollector g] s e =
      ({s with helper := s.helper ∪ collect_opt_js_expr e}, e) := by
  cases e with
  | none => simp [transform_opt_js_expr, collect_opt_js_expr]
  | some e => simp [transform_opt_js_expr, collect_opt_js_expr, transform_js_expr_collector]

theorem transform_comment_collector (g : VNodeIR → RuntimeHelper) (s : CollectorState)
    (c : String) :
    transform_comment [EntityCollector g] s c =
      ({s with helper := s.helper ∪ {RuntimeHelper.CreateComment}}, c) := by
  simp [transform_comment, runEnter, runExit, EntityCollector, HelperCollector.collect,
    insert_as_union]

theorem transform_runtime_dir_collector (g : VNodeIR → RuntimeHelper) (s : CollectorState)
    (d : RuntimeDir) :
    transform_runtime_dir [EntityCollector g] s d =
      ({s with helper := s.helper ∪ collect_runtime_dir d}, d) := by
  cases d with
  | mk nm e a m =>
    simp [transform_runtime_dir, transform_js_expr_collector, transform_opt_js_expr_collector,
      collect_runtime_dir, RuntimeDir.name, RuntimeDir.expr, RuntimeDir.arg, RuntimeDir.mods,
      Finset.union_assoc]

theorem transform_dirs_collector (g : VNodeIR → RuntimeHelper) (s : CollectorState)
    (ds : List RuntimeDir) :
    transform_dirs [EntityCollector g] s ds =
      ({s with helper := s.helper ∪ collect_dirs ds}, ds) := by
  induction ds generalizing s with
  | nil => simp [transform_dirs, collect_dirs]
  | cons d rest ih =>
    simp [transform_dirs, transform_runtime_dir_collector, ih, collect_dirs,
      Finset.union_assoc]

theorem runEnter_EC_children (g : VNodeIR → RuntimeHelper) (s : CollectorState)
    (cs : List IRNode) :
    runEnter [EntityCollector g] (fun p => p.enter_children) s cs = (s, cs) := rfl

theorem runExit_EC_children (g : VNodeIR → RuntimeHelper) (s : CollectorState)
    (cs : List IRNode) :
    runExit [EntityCollector g] (fun p => p.exit_children) s cs = (s, cs) := rfl

theorem runEnter_EC_if (g : VNodeIR → RuntimeHelper) (s : CollectorState) (i : IfNodeIR) :
    runEnter [EntityCollector g] (fun p => p.enter_if) s i = (s, i) := rfl

theorem runExit_EC_if (g : VNodeIR → RuntimeHelper) (s : CollectorState) (i : IfNodeIR) :
    runExit [EntityCollector g] (fun p => p.exit_if) s i =
      (if i.branches.all (fun b => b.condition.isSome) then
        {s with helper := insert RuntimeHelper.CreateComment s.helper}
      else s, i) := rfl

theorem runEnter_EC_for (g : VNodeIR → RuntimeHelper) (s : CollectorState) (f : ForNodeIR) :
    runEnter [EntityCollector g] (fun p => p.enter_for) s f = (s, f) := rfl

theorem runExit_EC_for (g : VNodeIR → RuntimeHelper) (s : CollectorState) (f : ForNodeIR) :
    runExit [EntityCollector g] (fun p => p.exit_for) s f =
      ({s with helper := insert RuntimeHelper.Fragment (insert RuntimeHelper.RenderList
        (insert RuntimeHelper.CreateElementBlock
          (insert RuntimeHelper.OpenBlock s.helper)))}, f) := rfl

theorem runEnter_EC_vnode (g : VNodeIR → RuntimeHelper) (s : CollectorState) (v : VNodeIR) :
    runEnter [EntityCollector g] (fun p => p.enter_vnode) s v = (s, v) := rfl

theorem runExit_EC_vnode (g : VNodeIR → RuntimeHelper) (s : CollectorState) (v : VNodeIR) :
    runExit [EntityCollector g] (fun p => p.exit_vnode) s v =
      (let s1 := if !v.directives.isEmpty then
          {s with helper := insert RuntimeHelper.WithDirectives s.helper}
        else s
       let s2 := if v.is_block then {s1 with helper := insert RuntimeHelper.OpenBlock s1.helper}
        else s1
       ({s2 with helper := insert (g v) s2.helper}, v)) := rfl

theorem runEnter_EC_slot_outlet (g : VNodeIR → RuntimeHelper) (s : CollectorState)
    (r : RenderSlotIR) :
    runEnter [EntityCollector g] (fun p => p.enter_slot_outlet) s r = (s, r) := rfl

theorem runExit_EC_slot_outlet (g : VNodeIR → RuntimeHelper) (s : CollectorState)
    (r : RenderSlotIR) :
    runExit [EntityCollector g] (fun p => p.exit_slot_outlet) s r =
      ({s with helper := insert RuntimeHelper.RenderSlot s.helper}, r) := rfl

theorem runEnter_EC_v_slot (g : VNodeIR → RuntimeHelper) (s : CollectorState) (sl : VSlotIR) :
    runEnter [EntityCollector g] (fun p => p.enter_v_slot) s sl = (s, sl) := rfl

theorem runExit_EC_v_slot (g : VNodeIR → RuntimeHelper) (s : CollectorState) (sl : VSlotIR) :
    runExit [EntityCollector g] (fun p => p.exit_v_slot) s sl =
      (let s1 := if !sl.alterable_slots.isEmpty then
          {s with helper := insert RuntimeHelper.CreateSlots s.helper}
        else s
       ({s1 with helper := insert RuntimeHelper.WithCtx s1.helper}, sl)) := rfl

theorem collector_master (g : VNodeIR → RuntimeHelper) : ∀ fuel : Nat,
    (∀ s n, transform_ir [EntityCollector g] fuel s n =
      (collect_ir g fuel n).map fun h => ({s with helper := s.helper ∪ h}, n)) ∧
    (∀ s cs, transform_children [EntityCollector g] fuel s cs =
      (collect_children g fuel cs).map fun h => ({s with helper := s.helper ∪ h}, cs)) ∧
    (∀ s cs, transform_ir_list [EntityCollector g] fuel s cs =
      (collect_ir_list g fuel cs).map fun h => ({s with helper := s.helper ∪ h}, cs)) ∧
    (∀ s i, transform_if [EntityCollector g] fuel s i =
      (collect_if g fuel i).map fun h => ({s with helper := s.helper ∪ h}, i)) ∧
    (∀ s bs, transform_branches [EntityCollector g] fuel s bs =
      (collect_branches g fuel bs).map fun h => ({s with helper := s.helper ∪ h}, bs)) ∧
    (∀ s f, transform_for [EntityCollector g] fuel s f =
      (collect_for g fuel f).map fun h => ({s with helper := s.helper ∪ h}, f)) ∧
    (∀ s v, transform_vnode [EntityCollector g] fuel s v =
      (collect_vnode g fuel v).map fun h => ({s with helper := s.helper ∪ h}, v)) ∧
    (∀ s r, transform_slot_outlet [EntityCollector g] fuel s r =
      (collect_slot_outlet g fuel r).map fun h => ({s with helper := s.helper ∪ h}, r)) ∧
    (∀ s sl, transform_v_slot [EntityCollector g] fuel s sl =
      (collect_v_slot g fuel sl).map fun h => ({s with helper := s.helper ∪ h}, sl)) ∧
    (∀ s ss, transform_stable_slots [EntityCollector g] fuel s ss =
      (collect_stable_slots g fuel ss).map fun h => ({s with helper := s.helper ∪ h}, ss)) := by
  intro fuel
  induction fuel with
  | zero =>
    refine ⟨fun s n => rfl, fun s cs => rfl, fun s cs => rfl, fun s i => rfl, fun s bs => rfl,
      fun s f => rfl, fun s v => rfl, fun s r => rfl, fun s sl => rfl, fun s ss => rfl⟩
  | succ fuel ih =>
    obtain ⟨ih_ir, ih_ch, ih_list, ih_if, ih_br, ih_for, ih_vn, ih_so, ih_vs, ih_ss⟩ := ih
    refine ⟨?_, ?_, ?_, ?_, ?_, ?_, ?_, ?_, ?_, ?_⟩
    · -- transform_ir
      intro s n
      cases n with
      | TextCall t => simp [transform_ir, collect_ir, transform_text_collector, Except.map]
      | If i =>
        simp only [transform_ir, collect_ir]
        rw [ih_if]
        cases collect_if g fuel i with
        | error e => rfl
        | ok h => simp [Except.map, Except.bind, Except.instMonad, bind, pure, Except.pure]
      | For f =>
        simp only [transform_ir, collect_ir]
        rw [ih_for]
        cases collect_for g fuel f with
        | error e => rfl
        | ok h => simp [Except.map, Except.bind, Except.instMonad, bind, pure, Except.pure]
      | VNodeCall v =>
        simp only [transform_ir, collect_ir]
        rw [ih_vn]
        cases collect_vnode g fuel v with
        | error e => rfl
        | ok h => simp [Except.map, Except.bind, Except.instMonad, bind, pure, Except.pure]
      | RenderSlotCall r =>
        simp only [transform_ir, collect_ir]
        rw [ih_so]
        cases collect_slot_outlet g fuel r with
        | error e => rfl
        | ok h => simp [Except.map, Except.bind, Except.instMonad, bind, pure, Except.pure]
      | CommentCall c =>
        simp [transform_ir, collect_ir, transform_comment_collector, Except.map,
          insert_as_union]
      | VSlotUse sl =>
        simp only [transform_ir, collect_ir]
        rw [ih_vs]
        cases collect_v_slot g fuel sl with
        | error e => rfl
        | ok h => simp [Except.map, Except.bind, Except.instMonad, bind, pure, Except.pure]
      | AlterableSlot a => rfl
    · -- transform_children
      intro s cs
      simp only [transform_children, collect_children, runEnter_EC_children]
      rw [ih_list]
      cases collect_ir_list g fuel cs with
      | error e => rfl
      | ok h =>
        simp [Except.map, Except.bind, Except.instMonad, bind, pure, Except.pure,
          runExit_EC_children]
    · -- transform_ir_list
      intro s cs
      cases cs with
      | nil => simp [transform_ir_list, collect_ir_list, Except.map]
      | cons c rest =>
        simp only [transform_ir_list, collect_ir_list]
        rw [ih_ir]
        cases h1 : collect_ir g fuel c with
        | error e => rfl
        | ok hc =>
          simp only [Except.map, Except.bind, Except.instMonad, bind]
          rw [ih_list]
          cases h2 : collect_ir_list g fuel rest with
          | error e => rfl
          | ok hr =>
            simp [Except.map, Except.bind, Except.instMonad, bind, pure, Except.pure,
              Finset.union_assoc]
    · -- transform_if
      intro s i
      cases i with
      | mk bs =>
        simp only [transform_if, collect_if, runEnter_EC_if, IfNodeIR.branches]
        rw [ih_br]
        cases hb : collect_branches g fuel bs with
        | error e => rfl
        | ok h =>
          simp only [Except.map, Except.bind, Except.instMonad, bind, pure, Except.pure,
            runExit_EC_if, IfNodeIR.branches]
          by_cases hall : bs.all (fun b => b.condition.isSome) <;>
            simp only [hall, if_true, if_false, Bool.false_eq_true, ite_true, ite_false,
              Except.ok.injEq, Prod.mk.injEq, CollectorState.mk.injEq, and_true, true_and] <;>
            (ext x; simp; try tauto)
    · -- transform_branches
      intro s bs
      cases bs with
      | nil => simp [transform_branches, collect_branches, Except.map]
      | cons b rest =>
        cases b with
        | mk cond child =>
          simp only [transform_branches, collect_branches]
          cases cond with
          | none =>
            rw [ih_ir]
            cases h1 : collect_ir g fuel child with
            | error e => rfl
            | ok hc =>
              simp only [Except.map, Except.bind, Except.instMonad, bind]
              rw [ih_br]
              cases h2 : collect_branches g fuel rest with
              | error e => rfl
              | ok hr =>
                simp only [Except.map, Except.bind, Except.instMonad, bind, pure, Except.pure,
                  collect_opt_js_expr, Except.ok.injEq, Prod.mk.injEq,
                  CollectorState.mk.injEq, and_true, true_and]
                ext x
                simp
                try tauto
          | some ce =>
            simp only [transform_js_expr_collector]
            rw [ih_ir]
            cases h1 : collect_ir g fuel child with
            | error e => rfl
            | ok hc =>
              simp only [Except.map, Except.bind, Except.instMonad, bind]
              rw [ih_br]
              cases h2 : collect_branches g fuel rest with
              | error e => rfl
              | ok hr =>
                simp only [Except.map, Except.bind, Except.instMonad, bind, pure, Except.pure,
                  collect_opt_js_expr, Except.ok.injEq, Prod.mk.injEq,
                  CollectorState.mk.injEq, and_true, true_and]
                ext x
                simp
                try tauto
    · -- transform_for
      intro s f
      cases f with
      | mk source value key index child =>
        simp only [transform_for, collect_for, runEnter_EC_for, transform_js_expr_collector,
          ForNodeIR.source, ForNodeIR.child]
        rw [ih_ir]
        cases h1 : collect_ir g fuel child with
        | error e => rfl
        | ok hc =>
          simp only [Except.map, Except.bind, Except.instMonad, bind, pure, Except.pure,
            runExit_EC_for, Except.ok.injEq, Prod.mk.injEq, CollectorState.mk.injEq,
            and_true, true_and]
          ext x
          simp
          try tauto
    · -- transform_vnode
      intro s v
      cases v with
      | mk tag props children directives is_blk =>
        simp only [transform_vnode, collect_vnode, runEnter_EC_vnode,
          transform_js_expr_collector, transform_opt_js_expr_collector,
          VNodeIR.tag, VNodeIR.props, VNodeIR.children, VNodeIR.directives, VNodeIR.is_block]
        rw [ih_ch]
        cases h1 : collect_children g fuel children with
        | error e => rfl
        | ok hc =>
          simp only [Except.map, Except.bind, Except.instMonad, bind, pure, Except.pure,
            transform_dirs_collector, runExit_EC_vnode,
            VNodeIR.directives, VNodeIR.is_block]
          rcases Bool.eq_false_or_eq_true directives.isEmpty with hd | hd <;>
            rcases Bool.eq_false_or_eq_true is_blk with hb2 | hb2 <;>
            simp only [hd, hb2, Bool.not_true, Bool.not_false, if_true, if_false, ite_true,
              ite_false, Except.ok.injEq, Prod.mk.injEq, CollectorState.mk.injEq,
              and_true, true_and] <;>
            (first
              | rfl
              | (refine ⟨?_, rfl, rfl⟩; ext x; simp; try tauto)
              | (ext x; simp; try tauto))
    · -- transform_slot_outlet
      intro s r
      cases r with
      | mk slot_name slot_props fallbacks =>
        simp only [transform_slot_outlet, collect_slot_outlet, runEnter_EC_slot_outlet,
          transform_js_expr_collector, transform_opt_js_expr_collector,
          RenderSlotIR.slot_name, RenderSlotIR.slot_props, RenderSlotIR.fallbacks]
        rw [ih_ch]
        cases h1 : collect_children g fuel fallbacks with
        | error e => rfl
        | ok hf =>
          simp only [Except.map, Except.bind, Except.instMonad, bind, pure, Except.pure,
            runExit_EC_slot_outlet, Except.ok.injEq, Prod.mk.injEq, CollectorState.mk.injEq,
            and_true, true_and]
          ext x
          simp
          try tauto
    · -- transform_v_slot
      intro s sl
      cases sl with
      | mk stable alterable =>
        simp only [transform_v_slot, collect_v_slot, runEnter_EC_v_slot,
          VSlotIR.stable_slots, VSlotIR.alterable_slots]
        rw [ih_ss]
        cases h1 : collect_stable_slots g fuel stable with
        | error e => rfl
        | ok hs =>
          simp only [Except.map, Except.bind, Except.instMonad, bind]
          rw [ih_list]
          cases h2 : collect_ir_list g fuel alterable with
          | error e => rfl
          | ok ha =>
            simp only [Except.map, Except.bind, Except.instMonad, bind, pure, Except.pure,
              runExit_EC_v_slot, VSlotIR.alterable_slots]
            rcases Bool.eq_false_or_eq_true alterable.isEmpty with halt | halt <;>
              simp only [halt, Bool.not_true, Bool.not_false, if_true, if_false, ite_true,
                ite_false, Except.ok.injEq, Prod.mk.injEq, CollectorState.mk.injEq,
                and_true, true_and] <;>
              (first
                | rfl
                | (refine ⟨?_, rfl, rfl⟩; ext x; simp; try tauto)
                | (ext x; simp; try tauto))
    · -- transform_stable_slots
      intro s ss
      cases ss with
      | nil => simp [transform_stable_slots, collect_stable_slots, Except.map]
      | cons sfn rest =>
        cases sfn with
        | mk nm body =>
          simp only [transform_stable_slots, collect_stable_slots, transform_js_expr_collector]
          rw [ih_ch]
          cases h1 : collect_children g fuel body with
          | error e => rfl
          | ok hb =>
            simp only [Except.map, Except.bind, Except.instMonad, bind]
            rw [ih_ss]
            cases h2 : collect_stable_slots g fuel rest with
            | error e => rfl
            | ok hr =>
              simp only [Except.map, Except.bind, Except.instMonad, bind, pure, Except.pure,
                Except.ok.injEq, Prod.mk.injEq, CollectorState.mk.injEq, and_true, true_and]
              ext x
              simp
              try tauto

/-! ## Theorems about the v-model converter -/

/-- If `get_non_empty_expr` yields no expression, the location it yields is
the head location. -/
theorem get_non_empty_expr_none_loc (e : Option AttributeValue) (hl : SourceLocation)
    (h : (get_non_empty_expr e hl).1 = none) : (get_non_empty_expr e hl).2 = hl := by
  unfold get_non_empty_expr at *
  match e with
  | none => rfl
  | some v =>
    by_cases hc : v.content = "" <;> simp [hc] at h ⊢

/-- C5: `convert_v_model` returns `Dropped` iff the bound expression is
absent/empty or is not a valid assignment target; in the absent/empty case
it reports exactly one `VModelNoExpression` diagnostic at the directive's
head location, in the malformed case exactly one
`VModelMalformedExpression` diagnostic, and when it converts it reports no
diagnostic. -/
theorem convert_v_model_dropped_iff (ck : ExprChecks) (dir : Directive) (element : Element) :
    ((convert_v_model ck dir element).1 = .Dropped ↔
      (get_non_empty_expr dir.expression dir.head_loc).1 = none ∨
        ∃ val, (get_non_empty_expr dir.expression dir.head_loc).1 = some val ∧
          is_member_expression ck val = false) ∧
    ((get_non_empty_expr dir.expression dir.head_loc).1 = none →
      (convert_v_model ck dir element).2 =
        [⟨.VModelNoExpression, dir.head_loc⟩]) ∧
    (∀ val, (get_non_empty_expr dir.expression dir.head_loc).1 = some val →
      is_member_expression ck val = false →
      (convert_v_model ck dir element).2 =
        [⟨.VModelMalformedExpression, (get_non_empty_expr dir.expression dir.head_loc).2⟩]) ∧
    (∀ v rt, (convert_v_model ck dir element).1 = .Converted v rt →
      (convert_v_model ck dir element).2 = []) := by
  have hloc := get_non_empty_expr_none_loc dir.expression dir.head_loc
  unfold convert_v_model
  cases hg : get_non_empty_expr dir.expression dir.head_loc with
  | mk ov loc =>
    rw [hg] at hloc
    cases ov with
    | none =>
      simp_all
    | some val =>
      by_cases hm : is_member_expression ck val
      · simp [hm]
      · simp only [Bool.not_eq_true] at hm
        simp [hm]

/-- C6: for a directive with absent argument, a non-empty member-expression
bound expression and no modifiers, on a native (non-component) element,
`convert_v_model` converts to the single-entry property list
`{ "modelValue": boundExpression }`, does not retain the directive as a
generic runtime directive, and reports no diagnostic. -/
theorem convert_v_model_happy_path (ck : ExprChecks) (dir : Directive) (element : Element)
    (val : String) (l : SourceLocation)
    (hexpr : get_non_empty_expr dir.expression dir.head_loc = (some val, l))
    (hmem : is_member_expression ck val = true)
    (harg : dir.argument = none)
    (hmods : dir.modifiers = [])
    (hnative : element.tag_type ≠ ElementType.Component) :
    convert_v_model ck dir element =
      (.Converted (.Props [(JsExpr.StrLit "modelValue", JsExpr.Simple val .NotStatic)])
        (.error false), []) := by
  unfold convert_v_model component_mods_prop
  rw [hexpr]
  simp [hmem, harg, hmods, JsExpr.str_lit]

/-- C1 counterexample: for `v-model` with absent argument, modifiers
`["trim"]`, expression `a.b`, on a component, the second property's key is
the literal `"modelModifiers"`, which differs from the claim's
`"modelValue" + "Modifiers"`. -/
theorem convert_v_model_default_modifiers_key_counterexample :
    (convert_v_model ⟨fun _ => false, fun s => s == "a.b"⟩
      ⟨"model", some ⟨"a.b", ⟨2, 5⟩⟩, ["trim"], none, ⟨0, 7⟩⟩ ⟨.Component⟩).1 =
      .Converted (.Props
        [(JsExpr.StrLit "modelValue", JsExpr.Simple "a.b" .NotStatic),
         (JsExpr.StrLit "modelModifiers",
          JsExpr.Props [(JsExpr.StrLit "trim", JsExpr.Src "true")])])
        (.error false) ∧
    JsExpr.StrLit "modelModifiers" ≠ JsExpr.StrLit ("modelValue" ++ "Modifiers") := by
  refine ⟨rfl, fun h => ?_⟩
  injection h with h2
  exact absurd h2 (by decide)

/-- C1 (amended): when the bound expression is a valid non-empty assignment
target, the modifiers list is non-empty and the owning element is a
component, the `Converted` payload carries a second property whose key is
the static argument with `"Modifiers"` appended, the dynamic argument
concatenated with `" + \x27Modifiers\x27"`, or the literal
`"modelModifiers"` when the argument is absent, and whose value maps each
modifier name to the literal `true` in declaration order. -/
theorem convert_v_model_component_modifiers (ck : ExprChecks) (dir : Directive)
    (element : Element) (val : String) (l : SourceLocation)
    (hexpr : get_non_empty_expr dir.expression dir.head_loc = (some val, l))
    (hmem : is_member_expression ck val = true)
    (hmods : dir.modifiers ≠ [])
    (hcomp : element.tag_type = ElementType.Component) :
    (convert_v_model ck dir element).1 =
      .Converted (.Props
        [((match dir.argument with
            | some (.Static s) => JsExpr.StrLit s
            | some (.Dynamic d) => JsExpr.Simple d .NotStatic
            | none => JsExpr.StrLit "modelValue"),
          JsExpr.Simple val .NotStatic),
         ((match dir.argument with
            | some (.Static s) => JsExpr.StrLit (s ++ "Modifiers")
            | some (.Dynamic d) =>
              JsExpr.Compound [JsExpr.Simple d .NotStatic, JsExpr.Src " + \x27Modifiers\x27"]
            | none => JsExpr.StrLit "modelModifiers"),
          JsExpr.Props (dir.modifiers.map fun m => (JsExpr.StrLit m, JsExpr.Src "true")))])
        (.error false) := by
  unfold convert_v_model component_mods_prop
  rw [hexpr]
  have hne : dir.modifiers.isEmpty = false := by
    cases hms : dir.modifiers with
    | nil => exact absurd hms hmods
    | cons a as => rfl
  simp [hmem, hne, hcomp, JsExpr.str_lit, JsExpr.simple]

/-- C5 witness: an absent expression is dropped. -/
theorem convert_v_model_dropped_iff_witness :
    (convert_v_model ⟨fun _ => false, fun _ => false⟩
      ⟨"model", none, [], none, ⟨0, 0⟩⟩ ⟨.Plain⟩).1 = .Dropped :=
  ((convert_v_model_dropped_iff ⟨fun _ => false, fun _ => false⟩
      ⟨"model", none, [], none, ⟨0, 0⟩⟩ ⟨.Plain⟩).1).mpr (.inl rfl)

/-- C6 witness at a concrete directive. -/
theorem convert_v_model_happy_path_witness :
    convert_v_model ⟨fun _ => false, fun s => s == "a.b"⟩
      ⟨"model", some ⟨"a.b", ⟨2, 5⟩⟩, [], none, ⟨0, 7⟩⟩ ⟨.Plain⟩ =
      (.Converted (.Props [(JsExpr.StrLit "modelValue", JsExpr.Simple "a.b" .NotStatic)])
        (.error false), []) :=
  convert_v_model_happy_path ⟨fun _ => false, fun s => s == "a.b"⟩
    ⟨"model", some ⟨"a.b", ⟨2, 5⟩⟩, [], none, ⟨0, 7⟩⟩ ⟨.Plain⟩ "a.b" ⟨2, 5⟩
    (by decide) (by decide) rfl rfl (by decide)

/-- C1 witness: a static argument `foo` with modifiers `trim, number` on a
component yields `fooModifiers` mapping each modifier to `true`. -/
theorem convert_v_model_component_modifiers_witness :
    (convert_v_model ⟨fun _ => false, fun s => s == "a.b"⟩
      ⟨"model", some ⟨"a.b", ⟨2, 5⟩⟩, ["trim", "number"], some (.Static "foo"), ⟨0, 7⟩⟩
      ⟨.Component⟩).1 =
      .Converted (.Props
        [(JsExpr.StrLit "foo", JsExpr.Simple "a.b" .NotStatic),
         (JsExpr.StrLit ("foo" ++ "Modifiers"),
          JsExpr.Props [(JsExpr.StrLit "trim", JsExpr.Src "true"),
                        (JsExpr.StrLit "number", JsExpr.Src "true")])])
        (.error false) :=
  convert_v_model_component_modifiers ⟨fun _ => false, fun s => s == "a.b"⟩
    ⟨"model", some ⟨"a.b", ⟨2, 5⟩⟩, ["trim", "number"], some (.Static "foo"), ⟨0, 7⟩⟩
    ⟨.Component⟩ "a.b" ⟨2, 5⟩ (by decide) (by decide) (by decide) rfl

end VueCompiler

namespace VueCompiler

/-- Root-level corollary of the master characterization: a transformer run
with the collector as only pass maps the collected helper set into the
state and returns the root unchanged. -/
theorem transform_root_collector (g : VNodeIR → RuntimeHelper) (fuel : Nat)
    (s : CollectorState) (root : IRRoot) :
    transform_root [EntityCollector g] fuel s root =
      (collect_children g fuel root.body).map
        fun h => ({s with helper := s.helper ∪ h}, root) := by
  cases root with
  | mk body =>
    simp only [transform_root]
    rw [(collector_master g fuel).2.1]
    cases collect_children g fuel body with
    | error e => rfl
    | ok h => simp [Except.map, Except.bind, Except.instMonad, bind, pure, Except.pure]

/-- C10: a transformer run with the Entity Collector as the only registered
pass leaves the IR tree unchanged: whenever the run completes, the returned
root is structurally equal to the input root. -/
theorem collector_preserves_tree (g : VNodeIR → RuntimeHelper) (fuel : Nat)
    (s : CollectorState) (root : IRRoot) (s2 : CollectorState) (r2 : IRRoot)
    (h : transform_root [EntityCollector g] fuel s root = .ok (s2, r2)) :
    r2 = root := by
  rw [transform_root_collector] at h
  cases hc : collect_children g fuel root.body with
  | error e =>
    rw [hc] at h
    simp [Except.map] at h
  | ok hh =>
    rw [hc] at h
    simp only [Except.map, Except.ok.injEq, Prod.mk.injEq] at h
    exact h.2.symm

/-- C10 witness at a concrete one-comment tree. -/
theorem collector_preserves_tree_witness :
    (⟨[.CommentCall "hi"]⟩ : IRRoot) = ⟨[.CommentCall "hi"]⟩ :=
  collector_preserves_tree (fun _ => RuntimeHelper.CreateVNode) 5 ⟨∅, [], []⟩
    ⟨[.CommentCall "hi"]⟩ ⟨insert RuntimeHelper.CreateComment ∅, [], []⟩
    ⟨[.CommentCall "hi"]⟩ rfl

/-- C2: no hook of the Entity Collector ever writes the component or
directive asset list: a full transformer run with the collector returns
them exactly as they were, so they are never populated. -/
theorem entity_collector_assets_never_written (g : VNodeIR → RuntimeHelper) (fuel : Nat)
    (s : CollectorState) (root : IRRoot) (s2 : CollectorState) (r2 : IRRoot)
    (h : transform_root [EntityCollector g] fuel s root = .ok (s2, r2)) :
    s2.components = s.components ∧ s2.directives = s.directives := by
  rw [transform_root_collector] at h
  cases hc : collect_children g fuel root.body with
  | error e =>
    rw [hc] at h
    simp [Except.map] at h
  | ok hh =>
    rw [hc] at h
    simp only [Except.map, Except.ok.injEq, Prod.mk.injEq] at h
    obtain ⟨hstate, _⟩ := h
    rw [← hstate]
    exact ⟨rfl, rfl⟩

/-- C2 witness: a tree referencing a component still yields empty asset
lists. -/
theorem entity_collector_assets_never_written_witness :
    ([] : List String) = ([] : List String) ∧ ([] : List String) = ([] : List String) :=
  entity_collector_assets_never_written (fun _ => RuntimeHelper.CreateVNode) 6
    ⟨∅, [], []⟩ ⟨[.VNodeCall (.mk (.Simple "MyComp" .NotStatic) none [] [] false)]⟩
    ⟨insert RuntimeHelper.CreateVNode ∅, [], []⟩
    ⟨[.VNodeCall (.mk (.Simple "MyComp" .NotStatic) none [] [] false)]⟩ rfl

/-- C9: entity collection is monotone and idempotent: a run never removes
helpers, and a second run over the returned tree from the returned state is
a fixed point. -/
theorem collector_idempotent (g : VNodeIR → RuntimeHelper) (fuel : Nat)
    (s : CollectorState) (root : IRRoot) (s2 : CollectorState) (r2 : IRRoot)
    (h : transform_root [EntityCollector g] fuel s root = .ok (s2, r2)) :
    s.helper ⊆ s2.helper ∧
      transform_root [EntityCollector g] fuel s2 r2 = .ok (s2, r2) := by
  rw [transform_root_collector] at h
  cases hc : collect_children g fuel root.body with
  | error e =>
    rw [hc] at h
    simp [Except.map] at h
  | ok hh =>
    rw [hc] at h
    simp only [Except.map, Except.ok.injEq, Prod.mk.injEq] at h
    obtain ⟨hstate, hroot⟩ := h
    subst hroot
    constructor
    · rw [← hstate]
      exact Finset.subset_union_left
    · rw [transform_root_collector, hc]
      simp only [Except.map, Except.ok.injEq, Prod.mk.injEq]
      refine ⟨?_, trivial⟩
      rw [← hstate]
      have huu : (s.helper ∪ hh) ∪ hh = s.helper ∪ hh := by
        ext x
        simp
        try tauto
      simp [huu]

/-- C9 witness at a concrete one-comment tree. -/
theorem collector_idempotent_witness :
    (⟨∅, [], []⟩ : CollectorState).helper ⊆
      (⟨insert RuntimeHelper.CreateComment ∅, [], []⟩ : CollectorState).helper ∧
    transform_root [EntityCollector (fun _ => RuntimeHelper.CreateVNode)] 5
      ⟨insert RuntimeHelper.CreateComment ∅, [], []⟩ ⟨[.CommentCall "hi"]⟩ =
      .ok (⟨insert RuntimeHelper.CreateComment ∅, [], []⟩, ⟨[.CommentCall "hi"]⟩) :=
  collector_idempotent (fun _ => RuntimeHelper.CreateVNode) 5 ⟨∅, [], []⟩
    ⟨[.CommentCall "hi"]⟩ ⟨insert RuntimeHelper.CreateComment ∅, [], []⟩
    ⟨[.CommentCall "hi"]⟩ rfl

/-- C7: the If-exit hook of the Entity Collector adds the `CreateComment`
helper exactly when every branch has a condition; when some branch has no
condition it adds nothing (the state is returned unchanged). -/
theorem exit_if_create_comment (g : VNodeIR → RuntimeHelper) (s : CollectorState)
    (i : IfNodeIR) :
    (EntityCollector g).exit_if s i =
      (if i.branches.all (fun b => b.condition.isSome) then
        {s with helper := insert RuntimeHelper.CreateComment s.helper}
      else s, i) ∧
    (RuntimeHelper.CreateComment ∈ ((EntityCollector g).exit_if s i).1.helper ↔
      (i.branches.all (fun b => b.condition.isSome) = true ∨
        RuntimeHelper.CreateComment ∈ s.helper)) := by
  constructor
  · rfl
  · by_cases hall : i.branches.all (fun b => b.condition.isSome) = true
    · simp only [EntityCollector, HelperCollector.collect, hall, if_true, ite_true]
      simp
    · rw [Bool.not_eq_true] at hall
      simp only [EntityCollector, HelperCollector.collect, hall, Bool.false_eq_true,
        if_false, ite_false]
      simp [hall]

/-- C7 witness: an if/else-if node (all branches conditional) gains
`CreateComment`; an if/else node does not. -/
theorem exit_if_create_comment_witness :
    (EntityCollector (fun _ => RuntimeHelper.CreateVNode)).exit_if ⟨∅, [], []⟩
        (.mk [.mk (some (.Src "a")) (.TextCall [])]) =
      (if (IfNodeIR.mk [.mk (some (.Src "a")) (.TextCall [])]).branches.all
          (fun b => b.condition.isSome) then
        {(⟨∅, [], []⟩ : CollectorState) with
          helper := insert RuntimeHelper.CreateComment (⟨∅, [], []⟩ : CollectorState).helper}
      else ⟨∅, [], []⟩, .mk [.mk (some (.Src "a")) (.TextCall [])]) ∧
    (RuntimeHelper.CreateComment ∈
        ((EntityCollector (fun _ => RuntimeHelper.CreateVNode)).exit_if ⟨∅, [], []⟩
          (.mk [.mk (some (.Src "a")) (.TextCall [])])).1.helper ↔
      ((IfNodeIR.mk [.mk (some (.Src "a")) (.TextCall [])]).branches.all
          (fun b => b.condition.isSome) = true ∨
        RuntimeHelper.CreateComment ∈ (⟨∅, [], []⟩ : CollectorState).helper)) :=
  exit_if_create_comment (fun _ => RuntimeHelper.CreateVNode) ⟨∅, [], []⟩
    (.mk [.mk (some (.Src "a")) (.TextCall [])])

/-- Ok results of `collect_ir_list` dominate each member's own collection
at one fuel step less. -/
theorem collect_ir_list_member (g : VNodeIR → RuntimeHelper) :
    ∀ (fuel : Nat) (cs : List IRNode) (H : Finset RuntimeHelper),
      collect_ir_list g fuel cs = .ok H →
      ∀ c ∈ cs, ∃ f2 hc, collect_ir g f2 c = .ok hc ∧ hc ⊆ H := by
  intro fuel
  induction fuel with
  | zero =>
    intro cs H h
    simp [collect_ir_list] at h
  | succ fuel ih =>
    intro cs H h c hcin
    cases cs with
    | nil => cases hcin
    | cons c0 rest =>
      simp only [collect_ir_list] at h
      cases h1 : collect_ir g fuel c0 with
      | error e =>
        rw [h1] at h
        simp [Except.bind, Except.instMonad, bind] at h
      | ok hc0 =>
        rw [h1] at h
        cases h2 : collect_ir_list g fuel rest with
        | error e =>
          rw [h2] at h
          simp [Except.bind, Except.instMonad, bind] at h
        | ok hr =>
          rw [h2] at h
          simp only [Except.bind, Except.instMonad, bind, pure, Except.pure,
            Except.ok.injEq] at h
          rcases List.mem_cons.mp hcin with hceq | hcin2
          · subst hceq
            refine ⟨fuel, hc0, h1, ?_⟩
            rw [← h]
            exact Finset.subset_union_left
          · obtain ⟨f2, hc, hcol, hsub⟩ := ih rest hr h2 c hcin2
            refine ⟨f2, hc, hcol, ?_⟩
            rw [← h]
            exact hsub.trans Finset.subset_union_right

/-- Ok results of `collect_branches` dominate each branch child's own
collection. -/
theorem collect_branches_member (g : VNodeIR → RuntimeHelper) :
    ∀ (fuel : Nat) (bs : List IfBranch) (H : Finset RuntimeHelper),
      collect_branches g fuel bs = .ok H →
      ∀ b ∈ bs, ∃ f2 hc, collect_ir g f2 b.child = .ok hc ∧ hc ⊆ H := by
  intro fuel
  induction fuel with
  | zero =>
    intro bs H h
    simp [collect_branches] at h
  | succ fuel ih =>
    intro bs H h b hbin
    cases bs with
    | nil => cases hbin
    | cons b0 rest =>
      cases b0 with
      | mk cond child =>
        simp only [collect_branches] at h
        cases h1 : collect_ir g fuel child with
        | error e =>
          rw [h1] at h
          simp [Except.bind, Except.instMonad, bind] at h
        | ok hc0 =>
          rw [h1] at h
          cases h2 : collect_branches g fuel rest with
          | error e =>
            rw [h2] at h
            simp [Except.bind, Except.instMonad, bind] at h
          | ok hr =>
            rw [h2] at h
            simp only [Except.bind, Except.instMonad, bind, pure, Except.pure,
              Except.ok.injEq] at h
            rcases List.mem_cons.mp hbin with hbeq | hbin2
            · subst hbeq
              refine ⟨fuel, hc0, by simpa [IfBranch.child] using h1, ?_⟩
              rw [← h]
              intro x hx
              simp [hx]
            · obtain ⟨f2, hc, hcol, hsub⟩ := ih rest hr h2 b hbin2
              refine ⟨f2, hc, hcol, ?_⟩
              rw [← h]
              intro x hx
              have := hsub hx
              simp [this]

/-- Ok results of `collect_stable_slots` dominate each slot body's
children collection. -/
theorem collect_stable_slots_member (g : VNodeIR → RuntimeHelper) :
    ∀ (fuel : Nat) (ss : List SlotFnIR) (H : Finset RuntimeHelper),
      collect_stable_slots g fuel ss = .ok H →
      ∀ sfn ∈ ss, ∃ f2 hb, collect_children g f2 sfn.body = .ok hb ∧ hb ⊆ H := by
  intro fuel
  induction fuel with
  | zero =>
    intro ss H h
    simp [collect_stable_slots] at h
  | succ fuel ih =>
    intro ss H h sfn hsin
    cases ss with
    | nil => cases hsin
    | cons s0 rest =>
      cases s0 with
      | mk nm body =>
        simp only [collect_stable_slots] at h
        cases h1 : collect_children g fuel body with
        | error e =>
          rw [h1] at h
          simp [Except.bind, Except.instMonad, bind] at h
        | ok hb0 =>
          rw [h1] at h
          cases h2 : collect_stable_slots g fuel rest with
          | error e =>
            rw [h2] at h
            simp [Except.bind, Except.instMonad, bind] at h
          | ok hr =>
            rw [h2] at h
            simp only [Except.bind, Except.instMonad, bind, pure, Except.pure,
              Except.ok.injEq] at h
            rcases List.mem_cons.mp hsin with hseq | hsin2
            · subst hseq
              refine ⟨fuel, hb0, by simpa [SlotFnIR.body] using h1, ?_⟩
              rw [← h]
              intro x hx
              simp [hx]
            · obtain ⟨f2, hb, hcol, hsub⟩ := ih rest hr h2 sfn hsin2
              refine ⟨f2, hb, hcol, ?_⟩
              rw [← h]
              intro x hx
              have := hsub hx
              simp [this]

/-- Whenever a `For` node occurs at a traversed position of a node whose
collection run returns ok, the four for-loop helpers are in the result. -/
theorem hasFor_collect (g : VNodeIR → RuntimeHelper) :
    ∀ {n : IRNode}, HasForNode n →
      ∀ (fuel : Nat) (h : Finset RuntimeHelper), collect_ir g fuel n = .ok h →
        forLoopHelpers ⊆ h := by
  intro n hf
  induction hf with
  | here f =>
    intro fuel h hok
    cases fuel with
    | zero => simp [collect_ir] at hok
    | succ fuel =>
      simp only [collect_ir] at hok
      cases fuel with
      | zero => simp [collect_for] at hok
      | succ fuel =>
        simp only [collect_for] at hok
        cases h1 : collect_ir g fuel f.child with
        | error e =>
          rw [h1] at hok
          simp [Except.bind, Except.instMonad, bind] at hok
        | ok hc =>
          rw [h1] at hok
          simp only [Except.bind, Except.instMonad, bind, pure, Except.pure,
            Except.ok.injEq] at hok
          rw [← hok]
          intro x hx
          simp only [forLoopHelpers, Finset.mem_insert, Finset.mem_singleton] at hx
          simp [Finset.mem_union, forLoopHelpers]
          tauto
  | forChild h ih =>
    intro fuel hres hok
    cases fuel with
    | zero => simp [collect_ir] at hok
    | succ fuel =>
      simp only [collect_ir] at hok
      cases fuel with
      | zero => simp [collect_for] at hok
      | succ fuel =>
        simp only [collect_for] at hok
        cases h1 : collect_ir g fuel _ with
        | error e =>
          rw [h1] at hok
          simp [Except.bind, Except.instMonad, bind] at hok
        | ok hc =>
          rw [h1] at hok
          simp only [Except.bind, Except.instMonad, bind, pure, Except.pure,
            Except.ok.injEq] at hok
          rw [← hok]
          intro x hx
          simp [Finset.mem_union, forLoopHelpers]
          simp only [forLoopHelpers, Finset.mem_insert, Finset.mem_singleton] at hx
          tauto
  | ifBranch hb h ih =>
    intro fuel hres hok
    cases fuel with
    | zero => simp [collect_ir] at hok
    | succ fuel =>
      simp only [collect_ir] at hok
      cases fuel with
      | zero => simp [collect_if] at hok
      | succ fuel =>
        simp only [collect_if] at hok
        cases h1 : collect_branches g fuel _ with
        | error e =>
          rw [h1] at hok
          simp [Except.bind, Except.instMonad, bind] at hok
        | ok hbs =>
          rw [h1] at hok
          simp only [Except.bind, Except.instMonad, bind, pure, Except.pure,
            Except.ok.injEq] at hok
          obtain ⟨f2, hc, hcol, hsub⟩ := collect_branches_member g _ _ _ h1 _ hb
          have hfour := ih _ _ hcol
          rw [← hok]
          intro x hx
          have := hsub (hfour hx)
          simp [this]
  | vnodeChild hc h ih =>
    intro fuel hres hok
    cases fuel with
    | zero => simp [collect_ir] at hok
    | succ fuel =>
      simp only [collect_ir] at hok
      cases fuel with
      | zero => simp [collect_vnode] at hok
      | succ fuel =>
        simp only [collect_vnode] at hok
        cases h1 : collect_children g fuel _ with
        | error e =>
          rw [h1] at hok
          simp [Except.bind, Except.instMonad, bind] at hok
        | ok hch =>
          rw [h1] at hok
          simp only [Except.bind, Except.instMonad, bind, pure, Except.pure,
            Except.ok.injEq] at hok
          cases fuel with
          | zero => simp [collect_children] at h1
          | succ fuel =>
            simp only [collect_children] at h1
            obtain ⟨f2, hcc, hcol, hsub⟩ := collect_ir_list_member g _ _ _ h1 _ hc
            have hfour := ih _ _ hcol
            rw [← hok]
            intro x hx
            have := hsub (hfour hx)
            simp [this]
  | slotFallback hc h ih =>
    intro fuel hres hok
    cases fuel with
    | zero => simp [collect_ir] at hok
    | succ fuel =>
      simp only [collect_ir] at hok
      cases fuel with
      | zero => simp [collect_slot_outlet] at hok
      | succ fuel =>
        simp only [collect_slot_outlet] at hok
        cases h1 : collect_children g fuel _ with
        | error e =>
          rw [h1] at hok
          simp [Except.bind, Except.instMonad, bind] at hok
        | ok hch =>
          rw [h1] at hok
          simp only [Except.bind, Except.instMonad, bind, pure, Except.pure,
            Except.ok.injEq] at hok
          cases fuel with
          | zero => simp [collect_children] at h1
          | succ fuel =>
            simp only [collect_children] at h1
            obtain ⟨f2, hcc, hcol, hsub⟩ := collect_ir_list_member g _ _ _ h1 _ hc
            have hfour := ih _ _ hcol
            rw [← hok]
            intro x hx
            have := hsub (hfour hx)
            simp [this]
  | stableSlotBody hs hc h ih =>
    intro fuel hres hok
    cases fuel with
    | zero => simp [collect_ir] at hok
    | succ fuel =>
      simp only [collect_ir] at hok
      cases fuel with
      | zero => simp [collect_v_slot] at hok
      | succ fuel =>
        simp only [collect_v_slot] at hok
        cases h1 : collect_stable_slots g fuel _ with
        | error e =>
          rw [h1] at hok
          simp [Except.bind, Except.instMonad, bind] at hok
        | ok hss =>
          rw [h1] at hok
          cases h2 : collect_ir_list g fuel _ with
          | error e =>
            rw [h2] at hok
            simp [Except.bind, Except.instMonad, bind] at hok
          | ok ha =>
            rw [h2] at hok
            simp only [Except.bind, Except.instMonad, bind, pure, Except.pure,
              Except.ok.injEq] at hok
            obtain ⟨fb, hb, hcolb, hsubb⟩ := collect_stable_slots_member g _ _ _ h1 _ hs
            cases fb with
            | zero => simp [collect_children] at hcolb
            | succ fuel2 =>
              simp only [collect_children] at hcolb
              obtain ⟨f3, hcc, hcol, hsub⟩ := collect_ir_list_member g _ _ _ hcolb _ hc
              have hfour := ih _ _ hcol
              rw [← hok]
              intro x hx
              have := hsubb (hsub (hfour hx))
              simp [this]
  | alterableSlot hc h ih =>
    intro fuel hres hok
    cases fuel with
    | zero => simp [collect_ir] at hok
    | succ fuel =>
      simp only [collect_ir] at hok
      cases fuel with
      | zero => simp [collect_v_slot] at hok
      | succ fuel =>
        simp only [collect_v_slot] at hok
        cases h1 : collect_stable_slots g fuel _ with
        | error e =>
          rw [h1] at hok
          simp [Except.bind, Except.instMonad, bind] at hok
        | ok hss =>
          rw [h1] at hok
          cases h2 : collect_ir_list g fuel _ with
          | error e =>
            rw [h2] at hok
            simp [Except.bind, Except.instMonad, bind] at hok
          | ok ha =>
            rw [h2] at hok
            simp only [Except.bind, Except.instMonad, bind, pure, Except.pure,
              Except.ok.injEq] at hok
            obtain ⟨f2, hcc, hcol, hsub⟩ := collect_ir_list_member g _ _ _ h2 _ hc
            have hfour := ih _ _ hcol
            rw [← hok]
            intro x hx
            have := hsub (hfour hx)
            simp [this]

/-- C8: for every For node at a traversed position of the tree, a
completed transformer run with the Entity Collector has the four helpers
OpenBlock, CreateElementBlock, RenderList and Fragment in the collected
helper set. -/
theorem for_node_helpers (g : VNodeIR → RuntimeHelper) (fuel : Nat)
    (s : CollectorState) (root : IRRoot) (s2 : CollectorState) (r2 : IRRoot)
    (hfor : ∃ n ∈ root.body, HasForNode n)
    (h : transform_root [EntityCollector g] fuel s root = .ok (s2, r2)) :
    forLoopHelpers ⊆ s2.helper := by
  rw [transform_root_collector] at h
  cases hc : collect_children g fuel root.body with
  | error e =>
    rw [hc] at h
    simp [Except.map] at h
  | ok hh =>
    rw [hc] at h
    simp only [Except.map, Except.ok.injEq, Prod.mk.injEq] at h
    obtain ⟨hstate, _⟩ := h
    obtain ⟨n, hnin, hnfor⟩ := hfor
    cases fuel with
    | zero => simp [collect_children] at hc
    | succ fuel =>
      simp only [collect_children] at hc
      obtain ⟨f2, hcc, hcol, hsub⟩ := collect_ir_list_member g _ _ _ hc _ hnin
      have hfour := hasFor_collect g hnfor _ _ hcol
      rw [← hstate]
      intro x hx
      have := hsub (hfour hx)
      simp [this]

/-- C8 witness: a root with one For node gains the four helpers. -/
theorem for_node_helpers_witness :
    forLoopHelpers ⊆
      (⟨insert RuntimeHelper.Fragment (insert RuntimeHelper.RenderList
          (insert RuntimeHelper.CreateElementBlock
            (insert RuntimeHelper.OpenBlock ∅))), [], []⟩ : CollectorState).helper :=
  for_node_helpers (fun _ => RuntimeHelper.CreateVNode) 6 ⟨∅, [], []⟩
    ⟨[.For (.mk (.Src "xs") none none none (.TextCall []))]⟩
    ⟨insert RuntimeHelper.Fragment (insert RuntimeHelper.RenderList
      (insert RuntimeHelper.CreateElementBlock (insert RuntimeHelper.OpenBlock ∅))), [], []⟩
    ⟨[.For (.mk (.Src "xs") none none none (.TextCall []))]⟩
    ⟨.For (.mk (.Src "xs") none none none (.TextCall [])), by simp,
      .here (.mk (.Src "xs") none none none (.TextCall []))⟩ rfl

/-- Without an `AlterableSlot` at any traversed position, no function of
the collection family can return the fatal outcome (running out of fuel is
the only other error). -/
theorem collect_no_fatal (g : VNodeIR → RuntimeHelper) : ∀ fuel : Nat,
    (∀ n, ¬ HasAlterableNode n → collect_ir g fuel n ≠ .error .fatal) ∧
    (∀ cs, (∀ c ∈ cs, ¬ HasAlterableNode c) →
      collect_children g fuel cs ≠ .error .fatal) ∧
    (∀ cs, (∀ c ∈ cs, ¬ HasAlterableNode c) →
      collect_ir_list g fuel cs ≠ .error .fatal) ∧
    (∀ i, (∀ b ∈ i.branches, ¬ HasAlterableNode b.child) →
      collect_if g fuel i ≠ .error .fatal) ∧
    (∀ bs, (∀ b ∈ bs, ¬ HasAlterableNode b.child) →
      collect_branches g fuel bs ≠ .error .fatal) ∧
    (∀ f, ¬ HasAlterableNode f.child → collect_for g fuel f ≠ .error .fatal) ∧
    (∀ v, (∀ c ∈ v.children, ¬ HasAlterableNode c) →
      collect_vnode g fuel v ≠ .error .fatal) ∧
    (∀ r, (∀ c ∈ r.fallbacks, ¬ HasAlterableNode c) →
      collect_slot_outlet g fuel r ≠ .error .fatal) ∧
    (∀ sl, (∀ sfn ∈ sl.stable_slots, ∀ c ∈ sfn.body, ¬ HasAlterableNode c) →
      (∀ c ∈ sl.alterable_slots, ¬ HasAlterableNode c) →
      collect_v_slot g fuel sl ≠ .error .fatal) ∧
    (∀ ss, (∀ sfn ∈ ss, ∀ c ∈ sfn.body, ¬ HasAlterableNode c) →
      collect_stable_slots g fuel ss ≠ .error .fatal) := by
  intro fuel
  induction fuel with
  | zero =>
    refine ⟨?_, ?_, ?_, ?_, ?_, ?_, ?_, ?_, ?_, ?_⟩ <;>
      intro a <;> intros <;> simp [collect_ir, collect_children, collect_ir_list,
        collect_if, collect_branches, collect_for, collect_vnode, collect_slot_outlet,
        collect_v_slot, collect_stable_slots]
  | succ fuel ih =>
    obtain ⟨ih_ir, ih_ch, ih_list, ih_if, ih_br, ih_for, ih_vn, ih_so, ih_vs, ih_ss⟩ := ih
    refine ⟨?_, ?_, ?_, ?_, ?_, ?_, ?_, ?_, ?_, ?_⟩
    · intro n hnot
      cases n with
      | TextCall t => simp [collect_ir]
      | If i =>
        simp only [collect_ir]
        exact ih_if i (fun b hb h => hnot (.ifBranch hb h))
      | For f =>
        simp only [collect_ir]
        exact ih_for f (fun h => hnot (.forChild h))
      | VNodeCall v =>
        simp only [collect_ir]
        exact ih_vn v (fun c hc h => hnot (.vnodeChild hc h))
      | RenderSlotCall r =>
        simp only [collect_ir]
        exact ih_so r (fun c hc h => hnot (.slotFallback hc h))
      | CommentCall c => simp [collect_ir]
      | VSlotUse sl =>
        simp only [collect_ir]
        exact ih_vs sl (fun sfn hs c hc h => hnot (.stableSlotBody hs hc h))
          (fun c hc h => hnot (.alterableSlot hc h))
      | AlterableSlot a => exact fun _ => hnot (.here a)
    · intro cs hnot
      simp only [collect_children]
      exact ih_list cs hnot
    · intro cs hnot
      cases cs with
      | nil => simp [collect_ir_list]
      | cons c rest =>
        intro hcontra
        simp only [collect_ir_list] at hcontra
        cases h1 : collect_ir g fuel c with
        | error e =>
          rw [h1] at hcontra
          simp only [Except.bind, Except.instMonad, bind, Except.error.injEq] at hcontra
          subst hcontra
          exact ih_ir c (hnot c (by simp)) h1
        | ok hc =>
          rw [h1] at hcontra
          cases h2 : collect_ir_list g fuel rest with
          | error e =>
            rw [h2] at hcontra
            simp only [Except.bind, Except.instMonad, bind, Except.error.injEq] at hcontra
            subst hcontra
            exact ih_list rest (fun x hx => hnot x (by simp [hx])) h2
          | ok hr =>
            rw [h2] at hcontra
            simp [Except.bind, Except.instMonad, bind, pure, Except.pure] at hcontra
    · intro i hnot
      intro hcontra
      simp only [collect_if] at hcontra
      cases h1 : collect_branches g fuel i.branches with
      | error e =>
        rw [h1] at hcontra
        simp only [Except.bind, Except.instMonad, bind, Except.error.injEq] at hcontra
        subst hcontra
        exact ih_br i.branches hnot h1
      | ok hb =>
        rw [h1] at hcontra
        simp [Except.bind, Except.instMonad, bind, pure, Except.pure] at hcontra
    · intro bs hnot
      cases bs with
      | nil => simp [collect_branches]
      | cons b rest =>
        cases b with
        | mk cond child =>
          intro hcontra
          simp only [collect_branches] at hcontra
          cases h1 : collect_ir g fuel child with
          | error e =>
            rw [h1] at hcontra
            simp only [Except.bind, Except.instMonad, bind, Except.error.injEq] at hcontra
            subst hcontra
            exact ih_ir child (hnot (.mk cond child) (by simp) ) h1
          | ok hc =>
            rw [h1] at hcontra
            cases h2 : collect_branches g fuel rest with
            | error e =>
              rw [h2] at hcontra
              simp only [Except.bind, Except.instMonad, bind, Except.error.injEq] at hcontra
              subst hcontra
              exact ih_br rest (fun x hx => hnot x (by simp [hx])) h2
            | ok hr =>
              rw [h2] at hcontra
              simp [Except.bind, Except.instMonad, bind, pure, Except.pure] at hcontra
    · intro f hnot
      intro hcontra
      simp only [collect_for] at hcontra
      cases h1 : collect_ir g fuel f.child with
      | error e =>
        rw [h1] at hcontra
        simp only [Except.bind, Except.instMonad, bind, Except.error.injEq] at hcontra
        subst hcontra
        exact ih_ir f.child hnot h1
      | ok hc =>
        rw [h1] at hcontra
        simp [Except.bind, Except.instMonad, bind, pure, Except.pure] at hcontra
    · intro v hnot
      intro hcontra
      simp only [collect_vnode] at hcontra
      cases h1 : collect_children g fuel v.children with
      | error e =>
        rw [h1] at hcontra
        simp only [Except.bind, Except.instMonad, bind, Except.error.injEq] at hcontra
        subst hcontra
        exact ih_ch v.children hnot h1
      | ok hc =>
        rw [h1] at hcontra
        simp [Except.bind, Except.instMonad, bind, pure, Except.pure] at hcontra
    · intro r hnot
      intro hcontra
      simp only [collect_slot_outlet] at hcontra
      cases h1 : collect_children g fuel r.fallbacks with
      | error e =>
        rw [h1] at hcontra
        simp only [Except.bind, Except.instMonad, bind, Except.error.injEq] at hcontra
        subst hcontra
        exact ih_ch r.fallbacks hnot h1
      | ok hf =>
        rw [h1] at hcontra
        simp [Except.bind, Except.instMonad, bind, pure, Except.pure] at hcontra
    · intro sl hnots hnota
      intro hcontra
      simp only [collect_v_slot] at hcontra
      cases h1 : collect_stable_slots g fuel sl.stable_slots with
      | error e =>
        rw [h1] at hcontra
        simp only [Except.bind, Except.instMonad, bind, Except.error.injEq] at hcontra
        subst hcontra
        exact ih_ss sl.stable_slots hnots h1
      | ok hs =>
        rw [h1] at hcontra
        cases h2 : collect_ir_list g fuel sl.alterable_slots with
        | error e =>
          rw [h2] at hcontra
          simp only [Except.bind, Except.instMonad, bind, Except.error.injEq] at hcontra
          subst hcontra
          exact ih_list sl.alterable_slots hnota h2
        | ok ha =>
          rw [h2] at hcontra
          simp [Except.bind, Except.instMonad, bind, pure, Except.pure] at hcontra
    · intro ss hnot
      cases ss with
      | nil => simp [collect_stable_slots]
      | cons sfn rest =>
        cases sfn with
        | mk nm body =>
          intro hcontra
          simp only [collect_stable_slots] at hcontra
          cases h1 : collect_children g fuel body with
          | error e =>
            rw [h1] at hcontra
            simp only [Except.bind, Except.instMonad, bind, Except.error.injEq] at hcontra
            subst hcontra
            exact ih_ch body (fun c hc => hnot (.mk nm body) (by simp) c (by simpa [SlotFnIR.body] using hc)) h1
          | ok hb =>
            rw [h1] at hcontra
            cases h2 : collect_stable_slots g fuel rest with
            | error e =>
              rw [h2] at hcontra
              simp only [Except.bind, Except.instMonad, bind, Except.error.injEq] at hcontra
              subst hcontra
              exact ih_ss rest (fun x hx => hnot x (by simp [hx])) h2
            | ok hr =>
              rw [h2] at hcontra
              simp [Except.bind, Except.instMonad, bind, pure, Except.pure] at hcontra

/-- C4 counterexample: a tree whose only `AlterableSlot` sits inside the
alterable-slots list of a `VSlotUse` node still reaches the fatal branch:
`transform_v_slot` feeds each alterable slot straight to `transform_ir`,
which panics on the `AlterableSlot` shape. -/
theorem alterable_slot_counterexample :
    (IRNode.AlterableSlot (.mk (.Src "s") []) ∈
      (VSlotIR.mk [] [.AlterableSlot (.mk (.Src "s") [])]).alterable_slots) ∧
    transform_root [EntityCollector (fun _ => RuntimeHelper.CreateVNode)] 10 ⟨∅, [], []⟩
      ⟨[.VSlotUse (.mk [] [.AlterableSlot (.mk (.Src "s") [])])]⟩ = .error .fatal := by
  constructor
  · simp [VSlotIR.alterable_slots]
  · rfl

/-- C4 (amended): `transform_ir` on an `AlterableSlot` node is the fatal
branch for any pass list and any state, and a full transform run with the
Entity Collector never reaches the fatal branch exactly on trees with no
`AlterableSlot` at any traversed position (an `AlterableSlot` inside an
alterable-slots list is itself re-dispatched through `transform_ir` and is
fatal, as the counterexample shows). -/
theorem alterable_slot_fatal :
    (∀ (σ : Type) (ps : List (TPass σ)) (fuel : Nat) (s : σ) (a : SlotFnIR),
      transform_ir ps (fuel + 1) s (.AlterableSlot a) = .error .fatal) ∧
    (∀ (g : VNodeIR → RuntimeHelper) (fuel : Nat) (s : CollectorState) (root : IRRoot),
      (∀ n ∈ root.body, ¬ HasAlterableNode n) →
      transform_root [EntityCollector g] fuel s root ≠ .error .fatal) := by
  constructor
  · intro σ ps fuel s a
    rfl
  · intro g fuel s root hnot hcontra
    rw [transform_root_collector] at hcontra
    cases hc : collect_children g fuel root.body with
    | error e =>
      rw [hc] at hcontra
      simp only [Except.map, Except.error.injEq] at hcontra
      subst hcontra
      exact (collect_no_fatal g fuel).2.1 root.body hnot hc
    | ok hh =>
      rw [hc] at hcontra
      simp [Except.map] at hcontra

/-- C4 witness: the fatal equation at a concrete slot, and a concrete
alterable-free tree that never reaches the fatal branch. -/
theorem alterable_slot_fatal_witness :
    transform_ir ([] : List (TPass Unit)) 1 () (.AlterableSlot (.mk (.Src "s") [])) =
      .error .fatal ∧
    transform_root [EntityCollector (fun _ => RuntimeHelper.CreateVNode)] 5 ⟨∅, [], []⟩
      ⟨[.CommentCall "x"]⟩ ≠ .error .fatal :=
  ⟨alterable_slot_fatal.1 Unit [] 0 () (.mk (.Src "s") []),
   alterable_slot_fatal.2 (fun _ => RuntimeHelper.CreateVNode) 5 ⟨∅, [], []⟩
     ⟨[.CommentCall "x"]⟩ (by
       intro n hn h
       simp at hn
       subst hn
       cases h)⟩

/-! ## Characterization of an observation run -/

theorem transform_text_log (s : List HookEvent) (t : List JsExpr) :
    transform_text [logPass 0, logPass 1] s t = (s ++ sandwich .text [], t) := by
  simp [transform_text, runEnter, runExit, logPass, sandwich]

theorem transform_js_expr_log (s : List HookEvent) (e : JsExpr) :
    transform_js_expr [logPass 0, logPass 1] s e = (s ++ sandwich .jsExpr [], e) := by
  simp [transform_js_expr, runEnter, runExit, logPass, sandwich]

theorem transform_comment_log (s : List HookEvent) (c : String) :
    transform_comment [logPass 0, logPass 1] s c = (s ++ sandwich .comment [], c) := by
  simp [transform_comment, runEnter, runExit, logPass, sandwich]

theorem transform_opt_js_expr_log (s : List HookEvent) (e : Option JsExpr) :
    transform_opt_js_expr [logPass 0, logPass 1] s e = (s ++ logOpt e, e) := by
  cases e with
  | none => simp [transform_opt_js_expr, logOpt]
  | some e => simp [transform_opt_js_expr, logOpt, transform_js_expr_log]

theorem transform_runtime_dir_log (s : List HookEvent) (d : RuntimeDir) :
    transform_runtime_dir [logPass 0, logPass 1] s d = (s ++ log_runtime_dir d, d) := by
  cases d with
  | mk nm e a m =>
    simp [transform_runtime_dir, transform_js_expr_log, transform_opt_js_expr_log,
      log_runtime_dir, RuntimeDir.name, RuntimeDir.expr, RuntimeDir.arg, RuntimeDir.mods]

theorem transform_dirs_log (s : List HookEvent) (ds : List RuntimeDir) :
    transform_dirs [logPass 0, logPass 1] s ds = (s ++ log_dirs ds, ds) := by
  induction ds generalizing s with
  | nil => simp [transform_dirs, log_dirs]
  | cons d rest ih => simp [transform_dirs, transform_runtime_dir_log, ih, log_dirs]

theorem runEnter_log_children (s : List HookEvent) (cs : List IRNode) :
    runEnter [logPass 0, logPass 1] (fun p => p.enter_children) s cs =
      (s ++ [⟨0, .enter, .childrenList⟩, ⟨1, .enter, .childrenList⟩], cs) := by
  simp [runEnter, logPass]

theorem runExit_log_children (s : List HookEvent) (cs : List IRNode) :
    runExit [logPass 0, logPass 1] (fun p => p.exit_children) s cs =
      (s ++ [⟨1, .exit, .childrenList⟩, ⟨0, .exit, .childrenList⟩], cs) := by
  simp [runExit, logPass]

theorem runEnter_log_if (s : List HookEvent) (i : IfNodeIR) :
    runEnter [logPass 0, logPass 1] (fun p => p.enter_if) s i =
      (s ++ [⟨0, .enter, .ifShape⟩, ⟨1, .enter, .ifShape⟩], i) := by
  simp [runEnter, logPass]

theorem runExit_log_if (s : List HookEvent) (i : IfNodeIR) :
    runExit [logPass 0, logPass 1] (fun p => p.exit_if) s i =
      (s ++ [⟨1, .exit, .ifShape⟩, ⟨0, .exit, .ifShape⟩], i) := by
  simp [runExit, logPass]

theorem runEnter_log_for (s : List HookEvent) (f : ForNodeIR) :
    runEnter [logPass 0, logPass 1] (fun p => p.enter_for) s f =
      (s ++ [⟨0, .enter, .forShape⟩, ⟨1, .enter, .forShape⟩], f) := by
  simp [runEnter, logPass]

theorem runExit_log_for (s : List HookEvent) (f : ForNodeIR) :
    runExit [logPass 0, logPass 1] (fun p => p.exit_for) s f =
      (s ++ [⟨1, .exit, .forShape⟩, ⟨0, .exit, .forShape⟩], f) := by
  simp [runExit, logPass]

theorem runEnter_log_vnode (s : List HookEvent) (v : VNodeIR) :
    runEnter [logPass 0, logPass 1] (fun p => p.enter_vnode) s v =
      (s ++ [⟨0, .enter, .vnode⟩, ⟨1, .enter, .vnode⟩], v) := by
  simp [runEnter, logPass]

theorem runExit_log_vnode (s : List HookEvent) (v : VNodeIR) :
    runExit [logPass 0, logPass 1] (fun p => p.exit_vnode) s v =
      (s ++ [⟨1, .exit, .vnode⟩, ⟨0, .exit, .vnode⟩], v) := by
  simp [runExit, logPass]

theorem runEnter_log_slot_outlet (s : List HookEvent) (r : RenderSlotIR) :
    runEnter [logPass 0, logPass 1] (fun p => p.enter_slot_outlet) s r =
      (s ++ [⟨0, .enter, .slotOutlet⟩, ⟨1, .enter, .slotOutlet⟩], r) := by
  simp [runEnter, logPass]

theorem runExit_log_slot_outlet (s : List HookEvent) (r : RenderSlotIR) :
    runExit [logPass 0, logPass 1] (fun p => p.exit_slot_outlet) s r =
      (s ++ [⟨1, .exit, .slotOutlet⟩, ⟨0, .exit, .slotOutlet⟩], r) := by
  simp [runExit, logPass]

theorem runEnter_log_v_slot (s : List HookEvent) (sl : VSlotIR) :
    runEnter [logPass 0, logPass 1] (fun p => p.enter_v_slot) s sl =
      (s ++ [⟨0, .enter, .vSlot⟩, ⟨1, .enter, .vSlot⟩], sl) := by
  simp [runEnter, logPass]

theorem runExit_log_v_slot (s : List HookEvent) (sl : VSlotIR) :
    runExit [logPass 0, logPass 1] (fun p => p.exit_v_slot) s sl =
      (s ++ [⟨1, .exit, .vSlot⟩, ⟨0, .exit, .vSlot⟩], sl) := by
  simp [runExit, logPass]

theorem log_master : ∀ fuel : Nat,
    (∀ s n, transform_ir [logPass 0, logPass 1] fuel s n =
      (log_ir fuel n).map fun l => (s ++ l, n)) ∧
    (∀ s cs, transform_children [logPass 0, logPass 1] fuel s cs =
      (log_children fuel cs).map fun l => (s ++ l, cs)) ∧
    (∀ s cs, transform_ir_list [logPass 0, logPass 1] fuel s cs =
      (log_ir_list fuel cs).map fun l => (s ++ l, cs)) ∧
    (∀ s i, transform_if [logPass 0, logPass 1] fuel s i =
      (log_if fuel i).map fun l => (s ++ l, i)) ∧
    (∀ s bs, transform_branches [logPass 0, logPass 1] fuel s bs =
      (log_branches fuel bs).map fun l => (s ++ l, bs)) ∧
    (∀ s f, transform_for [logPass 0, logPass 1] fuel s f =
      (log_for fuel f).map fun l => (s ++ l, f)) ∧
    (∀ s v, transform_vnode [logPass 0, logPass 1] fuel s v =
      (log_vnode fuel v).map fun l => (s ++ l, v)) ∧
    (∀ s r, transform_slot_outlet [logPass 0, logPass 1] fuel s r =
      (log_slot_outlet fuel r).map fun l => (s ++ l, r)) ∧
    (∀ s sl, transform_v_slot [logPass 0, logPass 1] fuel s sl =
      (log_v_slot fuel sl).map fun l => (s ++ l, sl)) ∧
    (∀ s ss, transform_stable_slots [logPass 0, logPass 1] fuel s ss =
      (log_stable_slots fuel ss).map fun l => (s ++ l, ss)) := by
  intro fuel
  induction fuel with
  | zero =>
    refine ⟨fun s n => rfl, fun s cs => rfl, fun s cs => rfl, fun s i => rfl, fun s bs => rfl,
      fun s f => rfl, fun s v => rfl, fun s r => rfl, fun s sl => rfl, fun s ss => rfl⟩
  | succ fuel ih =>
    obtain ⟨ih_ir, ih_ch, ih_list, ih_if, ih_br, ih_for, ih_vn, ih_so, ih_vs, ih_ss⟩ := ih
    refine ⟨?_, ?_, ?_, ?_, ?_, ?_, ?_, ?_, ?_, ?_⟩
    · -- transform_ir
      intro s n
      cases n with
      | TextCall t => simp [transform_ir, log_ir, transform_text_log, Except.map]
      | If i =>
        simp only [transform_ir, log_ir]
        rw [ih_if]
        cases log_if fuel i with
        | error e => rfl
        | ok l => simp [Except.map, Except.bind, Except.instMonad, bind, pure, Except.pure]
      | For f =>
        simp only [transform_ir, log_ir]
        rw [ih_for]
        cases log_for fuel f with
        | error e => rfl
        | ok l => simp [Except.map, Except.bind, Except.instMonad, bind, pure, Except.pure]
      | VNodeCall v =>
        simp only [transform_ir, log_ir]
        rw [ih_vn]
        cases log_vnode fuel v with
        | error e => rfl
        | ok l => simp [Except.map, Except.bind, Except.instMonad, bind, pure, Except.pure]
      | RenderSlotCall r =>
        simp only [transform_ir, log_ir]
        rw [ih_so]
        cases log_slot_outlet fuel r with
        | error e => rfl
        | ok l => simp [Except.map, Except.bind, Except.instMonad, bind, pure, Except.pure]
      | CommentCall c =>
        simp [transform_ir, log_ir, transform_comment_log, Except.map]
      | VSlotUse sl =>
        simp only [transform_ir, log_ir]
        rw [ih_vs]
        cases log_v_slot fuel sl with
        | error e => rfl
        | ok l => simp [Except.map, Except.bind, Except.instMonad, bind, pure, Except.pure]
      | AlterableSlot a => rfl
    · -- transform_children
      intro s cs
      simp only [transform_children, log_children, runEnter_log_children]
      rw [ih_list]
      cases log_ir_list fuel cs with
      | error e => rfl
      | ok l =>
        simp [Except.map, Except.bind, Except.instMonad, bind, pure, Except.pure,
          runExit_log_children, sandwich]
    · -- transform_ir_list
      intro s cs
      cases cs with
      | nil => simp [transform_ir_list, log_ir_list, Except.map]
      | cons c rest =>
        simp only [transform_ir_list, log_ir_list]
        rw [ih_ir]
        cases h1 : log_ir fuel c with
        | error e => rfl
        | ok l =>
          simp only [Except.map, Except.bind, Except.instMonad, bind]
          rw [ih_list]
          cases h2 : log_ir_list fuel rest with
          | error e => rfl
          | ok lr =>
            simp [Except.map, Except.bind, Except.instMonad, bind, pure, Except.pure]
    · -- transform_if
      intro s i
      cases i with
      | mk bs =>
        simp only [transform_if, log_if, runEnter_log_if, IfNodeIR.branches]
        rw [ih_br]
        cases hb : log_branches fuel bs with
        | error e => rfl
        | ok lb =>
          simp [Except.map, Except.bind, Except.instMonad, bind, pure, Except.pure,
            runExit_log_if, sandwich]
    · -- transform_branches
      intro s bs
      cases bs with
      | nil => simp [transform_branches, log_branches, Except.map]
      | cons b rest =>
        cases b with
        | mk cond child =>
          simp only [transform_branches, log_branches]
          cases cond with
          | none =>
            rw [ih_ir]
            cases h1 : log_ir fuel child with
            | error e => rfl
            | ok l =>
              simp only [Except.map, Except.bind, Except.instMonad, bind]
              rw [ih_br]
              cases h2 : log_branches fuel rest with
              | error e => rfl
              | ok lr =>
                simp [Except.map, Except.bind, Except.instMonad, bind, pure, Except.pure,
                  logOpt]
          | some ce =>
            simp only [transform_js_expr_log]
            rw [ih_ir]
            cases h1 : log_ir fuel child with
            | error e => rfl
            | ok l =>
              simp only [Except.map, Except.bind, Except.instMonad, bind]
              rw [ih_br]
              cases h2 : log_branches fuel rest with
              | error e => rfl
              | ok lr =>
                simp [Except.map, Except.bind, Except.instMonad, bind, pure, Except.pure,
                  logOpt, sandwich]
    · -- transform_for
      intro s f
      cases f with
      | mk source value key index child =>
        simp only [transform_for, log_for, runEnter_log_for, transform_js_expr_log,
          ForNodeIR.source, ForNodeIR.child]
        rw [ih_ir]
        cases h1 : log_ir fuel child with
        | error e => rfl
        | ok l =>
          simp [Except.map, Except.bind, Except.instMonad, bind, pure, Except.pure,
            runExit_log_for, sandwich]
    · -- transform_vnode
      intro s v
      cases v with
      | mk tag props children directives is_blk =>
        simp only [transform_vnode, log_vnode, runEnter_log_vnode, transform_js_expr_log,
          transform_opt_js_expr_log, VNodeIR.tag, VNodeIR.props, VNodeIR.children,
          VNodeIR.directives, VNodeIR.is_block]
        rw [ih_ch]
        cases h1 : log_children fuel children with
        | error e => rfl
        | ok lc =>
          simp [Except.map, Except.bind, Except.instMonad, bind, pure, Except.pure,
            transform_dirs_log, runExit_log_vnode, sandwich]
    · -- transform_slot_outlet
      intro s r
      cases r with
      | mk slot_name slot_props fallbacks =>
        simp only [transform_slot_outlet, log_slot_outlet, runEnter_log_slot_outlet,
          transform_js_expr_log, transform_opt_js_expr_log, RenderSlotIR.slot_name,
          RenderSlotIR.slot_props, RenderSlotIR.fallbacks]
        rw [ih_ch]
        cases h1 : log_children fuel fallbacks with
        | error e => rfl
        | ok lf =>
          simp [Except.map, Except.bind, Except.instMonad, bind, pure, Except.pure,
            runExit_log_slot_outlet, sandwich]
    · -- transform_v_slot
      intro s sl
      cases sl with
      | mk stable alterable =>
        simp only [transform_v_slot, log_v_slot, runEnter_log_v_slot,
          VSlotIR.stable_slots, VSlotIR.alterable_slots]
        rw [ih_ss]
        cases h1 : log_stable_slots fuel stable with
        | error e => rfl
        | ok ls =>
          simp only [Except.map, Except.bind, Except.instMonad, bind]
          rw [ih_list]
          cases h2 : log_ir_list fuel alterable with
          | error e => rfl
          | ok la =>
            simp [Except.map, Except.bind, Except.instMonad, bind, pure, Except.pure,
              runExit_log_v_slot, sandwich]
    · -- transform_stable_slots
      intro s ss
      cases ss with
      | nil => simp [transform_stable_slots, log_stable_slots, Except.map]
      | cons sfn rest =>
        cases sfn with
        | mk nm body =>
          simp only [transform_stable_slots, log_stable_slots, transform_js_expr_log]
          rw [ih_ch]
          cases h1 : log_children fuel body with
          | error e => rfl
          | ok lb =>
            simp only [Except.map, Except.bind, Except.instMonad, bind]
            rw [ih_ss]
            cases h2 : log_stable_slots fuel rest with
            | error e => rfl
            | ok lr =>
              simp [Except.map, Except.bind, Except.instMonad, bind, pure, Except.pure,
                sandwich]

/-- Every ok log of `log_ir` is a sandwich for the node's shape. -/
theorem log_ir_sandwich : ∀ (fuel : Nat) (n : IRNode) (l : List HookEvent),
    log_ir fuel n = .ok l → ∃ mid, l = sandwich (shapeOf n) mid := by
  intro fuel n l h
  cases fuel with
  | zero => simp [log_ir] at h
  | succ fuel =>
    cases n with
    | TextCall t =>
      simp only [log_ir, Except.ok.injEq] at h
      exact ⟨[], by simp [shapeOf, h.symm]⟩
    | If i =>
      simp only [log_ir] at h
      cases fuel with
      | zero => simp [log_if] at h
      | succ fuel =>
        simp only [log_if] at h
        cases hb : log_branches fuel i.branches with
        | error e =>
          rw [hb] at h
          simp [Except.bind, Except.instMonad, bind] at h
        | ok lb =>
          rw [hb] at h
          simp only [Except.bind, Except.instMonad, bind, pure, Except.pure,
            Except.ok.injEq] at h
          exact ⟨lb, by simp [shapeOf, h.symm]⟩
    | For f =>
      simp only [log_ir] at h
      cases fuel with
      | zero => simp [log_for] at h
      | succ fuel =>
        simp only [log_for] at h
        cases hc : log_ir fuel f.child with
        | error e =>
          rw [hc] at h
          simp [Except.bind, Except.instMonad, bind] at h
        | ok l2 =>
          rw [hc] at h
          simp only [Except.bind, Except.instMonad, bind, pure, Except.pure,
            Except.ok.injEq] at h
          exact ⟨sandwich .jsExpr [] ++ l2, by simp [shapeOf, h.symm]⟩
    | VNodeCall v =>
      simp only [log_ir] at h
      cases fuel with
      | zero => simp [log_vnode] at h
      | succ fuel =>
        simp only [log_vnode] at h
        cases hc : log_children fuel v.children with
        | error e =>
          rw [hc] at h
          simp [Except.bind, Except.instMonad, bind] at h
        | ok lc =>
          rw [hc] at h
          simp only [Except.bind, Except.instMonad, bind, pure, Except.pure,
            Except.ok.injEq] at h
          exact ⟨sandwich .jsExpr [] ++ logOpt v.props ++ lc ++ log_dirs v.directives,
            by simp [shapeOf, h.symm]⟩
    | RenderSlotCall r =>
      simp only [log_ir] at h
      cases fuel with
      | zero => simp [log_slot_outlet] at h
      | succ fuel =>
        simp only [log_slot_outlet] at h
        cases hc : log_children fuel r.fallbacks with
        | error e =>
          rw [hc] at h
          simp [Except.bind, Except.instMonad, bind] at h
        | ok lf =>
          rw [hc] at h
          simp only [Except.bind, Except.instMonad, bind, pure, Except.pure,
            Except.ok.injEq] at h
          exact ⟨sandwich .jsExpr [] ++ logOpt r.slot_props ++ lf,
            by simp [shapeOf, h.symm]⟩
    | CommentCall c =>
      simp only [log_ir, Except.ok.injEq] at h
      exact ⟨[], by simp [shapeOf, h.symm]⟩
    | VSlotUse sl =>
      simp only [log_ir] at h
      cases fuel with
      | zero => simp [log_v_slot] at h
      | succ fuel =>
        simp only [log_v_slot] at h
        cases hs : log_stable_slots fuel sl.stable_slots with
        | error e =>
          rw [hs] at h
          simp [Except.bind, Except.instMonad, bind] at h
        | ok ls =>
          rw [hs] at h
          cases ha : log_ir_list fuel sl.alterable_slots with
          | error e =>
            rw [ha] at h
            simp [Except.bind, Except.instMonad, bind] at h
          | ok la =>
            rw [ha] at h
            simp only [Except.bind, Except.instMonad, bind, pure, Except.pure,
              Except.ok.injEq] at h
            exact ⟨ls ++ la, by simp [shapeOf, h.symm]⟩
    | AlterableSlot a => simp [log_ir] at h

/-- C3: enter hooks of a two-pass registration run in registration order
and exit hooks in reverse order, and one observed traversal of a node of
any shape shows A.enter, B.enter, the sub-traversal, B.exit, A.exit. -/
theorem traversal_hook_order :
    (∀ (σ α : Type) (A B : TPass σ) (hook : TPass σ → σ → α → σ × α) (s : σ) (x : α),
      runEnter [A, B] hook s x =
        (hook B (hook A s x).1 (hook A s x).2) ∧
      runExit [A, B] hook s x =
        (hook A (hook B s x).1 (hook B s x).2)) ∧
    (∀ (fuel : Nat) (s : List HookEvent) (n : IRNode) (s2 : List HookEvent) (n2 : IRNode),
      transform_ir [logPass 0, logPass 1] fuel s n = .ok (s2, n2) →
      n2 = n ∧ ∃ mid, s2 = s ++
        (⟨0, .enter, shapeOf n⟩ :: ⟨1, .enter, shapeOf n⟩ :: mid ++
          [⟨1, .exit, shapeOf n⟩, ⟨0, .exit, shapeOf n⟩])) := by
  constructor
  · intro σ α A B hook s x
    exact ⟨rfl, rfl⟩
  · intro fuel s n s2 n2 h
    rw [(log_master fuel).1] at h
    cases hl : log_ir fuel n with
    | error e =>
      rw [hl] at h
      simp [Except.map] at h
    | ok l =>
      rw [hl] at h
      simp only [Except.map, Except.ok.injEq, Prod.mk.injEq] at h
      obtain ⟨hs2, hn2⟩ := h
      refine ⟨hn2.symm, ?_⟩
      obtain ⟨mid, hmid⟩ := log_ir_sandwich fuel n l hl
      refine ⟨mid, ?_⟩
      rw [← hs2, hmid]
      simp [sandwich]

/-- C3 witness: the observed order on a concrete comment node. -/
theorem traversal_hook_order_witness :
    (IRNode.CommentCall "c" : IRNode) = .CommentCall "c" ∧ ∃ mid,
      ([⟨0, .enter, .comment⟩, ⟨1, .enter, .comment⟩,
        ⟨1, .exit, .comment⟩, ⟨0, .exit, .comment⟩] : List HookEvent) = [] ++
        (⟨0, .enter, shapeOf (.CommentCall "c")⟩ ::
          ⟨1, .enter, shapeOf (.CommentCall "c")⟩ :: mid ++
          [⟨1, .exit, shapeOf (.CommentCall "c")⟩,
           ⟨0, .exit, shapeOf (.CommentCall "c")⟩]) :=
  traversal_hook_order.2 1 [] (.CommentCall "c")
    [⟨0, .enter, .comment⟩, ⟨1, .enter, .comment⟩,
     ⟨1, .exit, .comment⟩, ⟨0, .exit, .comment⟩] (.CommentCall "c") rfl

end VueCompiler
